import Mathlib

/-!
Formal model of the shogi-kifu CSA parsing pipeline.

Definitions are transcribed from the Rust sources under
`src/parser/mod.rs`, `src/parser/csa/mod.rs`, `src/parser/csa/v2_2/mod.rs`
and `src/parser/csa/v3/mod.rs`.  The domain value types (`crate::value`),
the `v2`/`v2_1` dialect modules and the declarative pest grammar files are
not part of the sources; they are modelled from the specification and
marked as such in their doc comments.

Machine integers are modelled by `Nat`; `std::time::Duration` values built
via `from_secs`/`from_millis` are modelled by a whole-millisecond count.
Rust strings are Lean `String`s; `str::lines`, `str::trim`, `str::split`
and `char::to_digit(10)` are modelled explicitly below.
-/

deriving instance DecidableEq for Except

namespace ShogiKifu

/-- Modelled from the spec: side to move / piece owner (`crate::value::Color`,
Black is the first player). -/
inductive Color where
  | Black
  | White
deriving DecidableEq

/-- Modelled from the spec: the closed set of piece kinds
(`crate::value::PieceType`), promoted forms distinct, plus the wildcard
`All` used only in handicap removal lists. -/
inductive PieceType where
  | Pawn
  | Lance
  | Knight
  | Silver
  | Gold
  | Bishop
  | Rook
  | King
  | ProPawn
  | ProLance
  | ProKnight
  | ProSilver
  | Horse
  | Dragon
  | All
deriving DecidableEq

/-- Modelled from the spec: a board coordinate (`crate::value::Square`);
(0,0) is the "no origin" drop sentinel. -/
structure Square where
  file : Nat
  rank : Nat
deriving DecidableEq

/-- Constructor mirroring `Square::new(file, rank)`. -/
def Square.new (file rank : Nat) : Square := ⟨file, rank⟩

/-- Model of `std::time::Duration` restricted to the whole-millisecond
values this code produces (`from_secs`, `from_millis`). -/
structure Duration where
  millis : Nat
deriving DecidableEq

/-- Model of `Duration::from_secs`. -/
def Duration.fromSecs (s : Nat) : Duration := ⟨s * 1000⟩

/-- Model of `Duration::from_millis`. -/
def Duration.fromMillis (m : Nat) : Duration := ⟨m⟩

/-- Modelled from the spec: one event in the move stream
(`crate::value::Action`): a move or a named terminal/administrative event;
`Error` is the "unrecognized" variant. -/
inductive Action where
  | Move (color : Color) (fromSq toSq : Square) (piece : PieceType)
  | Toryo
  | Chudan
  | Sennichite
  | TimeUp
  | IllegalMove
  | IllegalAction (color : Color)
  | Jishogi
  | Kachi
  | Hikiwake
  | Matta
  | Tsumi
  | Fuzumi
  | Error
deriving DecidableEq

/-- Modelled from the spec: one line item of the game
(`crate::value::MoveRecord`): an action with an optional elapsed time. -/
structure MoveRecord where
  action : Action
  time : Option Duration
deriving DecidableEq

/-- Model of `time::Date` as plain calendar fields; validity is enforced at
construction time (`from_calendar_date`). -/
structure Date where
  year : Int
  month : Nat
  day : Nat
deriving DecidableEq

/-- Model of `time::Time` (hour/minute/second). -/
structure TimeOfDay where
  hour : Nat
  minute : Nat
  second : Nat
deriving DecidableEq

/-- Modelled from the spec: a calendar date with optional clock time
(`crate::value::Time`). -/
structure Time where
  date : Date
  time : Option TimeOfDay
deriving DecidableEq

/-- Modelled from the spec: game clock configuration
(`crate::value::TimeLimit`): main allotment plus byoyomi. -/
structure TimeLimit where
  main_time : Duration
  byoyomi : Duration
deriving DecidableEq

/-- Board grids: the Rust code uses fixed 9x9, 5x5 and 3x5 arrays of
`Option<(Color, PieceType)>`; all three are modelled as lists of rows of
cells, with the initial all-empty value built by replication. -/
def Grid : Type := List (List (Option (Color × PieceType)))

instance : DecidableEq Grid := by
  unfold Grid
  infer_instance

/-- The all-empty grid of `rows` rows and `cols` columns, modelling the
Rust array initializer `[[None; cols]; rows]`. -/
def Grid.empty (rows cols : Nat) : Grid :=
  List.replicate rows (List.replicate cols none)

/-- Write one cell at row `r` column `c`; out-of-range writes are dropped,
which matches the bounds-guarded writes of the Rust code. -/
def Grid.setCell (g : Grid) (r c : Nat) (v : Option (Color × PieceType)) : Grid :=
  g.set r ((g.getD r []).set c v)

/-- Modelled from the spec: starting board state
(`crate::value::Position`): handicap removals, at most one of the three
grid encodings, explicit placements, side to move. -/
structure Position where
  drop_pieces : List (Square × PieceType)
  bulk : Option Grid
  minishogi_bulk : Option Grid
  wildcat_bulk : Option Grid
  add_pieces : List (Color × Square × PieceType)
  side_to_move : Color
deriving DecidableEq

/-- Model of `Position::default()`. -/
def Position.default : Position :=
  { drop_pieces := []
    bulk := none
    minishogi_bulk := none
    wildcat_bulk := none
    add_pieces := []
    side_to_move := Color.Black }

/-- Modelled from the spec: one parsed game (`crate::value::GameRecord`). -/
structure GameRecord where
  black_player : Option String
  white_player : Option String
  event : Option String
  site : Option String
  opening : Option String
  start_time : Option Time
  end_time : Option Time
  time_limit : Option TimeLimit
  start_pos : Position
  moves : List MoveRecord
deriving DecidableEq

/-- Model of `GameRecord::default()`. -/
def GameRecord.default : GameRecord :=
  { black_player := none
    white_player := none
    event := none
    site := none
    opening := none
    start_time := none
    end_time := none
    time_limit := none
    start_pos := Position.default
    moves := [] }

/-- CSA format version, from `src/parser/csa/mod.rs`. -/
inductive Version where
  | V2
  | V2_1
  | V2_2
  | V3
deriving DecidableEq

/-- Model of Rust `str::starts_with` on strings. -/
def strStartsWith (s pre : String) : Bool :=
  List.isPrefixOf pre.data s.data

/-- Check whether `pat` occurs as a contiguous sublist of the second
argument, by testing a prefix match at every suffix. -/
def listInfixOf (pat : List Char) : List Char → Bool
  | [] => List.isPrefixOf pat []
  | c :: cs => List.isPrefixOf pat (c :: cs) || listInfixOf pat cs

/-- Model of Rust `str::contains` with a string pattern. -/
def strContains (s pat : String) : Bool :=
  listInfixOf pat.data s.data

/-- Whitespace as trimmed by `str::trim` (the characters relevant to this
format; the full Unicode White_Space set also holds exotic code points no
CSA file contains). -/
def isWhite (c : Char) : Bool :=
  c = ' ' || c = '\t' || c = '\r' || c = '\n'

/-- Model of Rust `str::trim`. -/
def rustTrim (s : String) : String :=
  ⟨((s.data.dropWhile isWhite).reverse.dropWhile isWhite).reverse⟩

/-- Split a character list at every occurrence of `sep` (the separator is
dropped); an empty input yields one empty piece, as Rust `split` does. -/
def splitChar (sep : Char) : List Char → List (List Char)
  | [] => [[]]
  | c :: cs =>
    let r := splitChar sep cs
    if c = sep then [] :: r
    else
      match r with
      | [] => [[c]]
      | h :: t => (c :: h) :: t

/-- Model of Rust `str::split` with a character separator, over strings. -/
def rustSplit (sep : Char) (s : String) : List String :=
  (splitChar sep s.data).map fun cs => ⟨cs⟩

/-- Model of Rust `str::lines`: split at `\n`, the final line ending being
optional, and strip one trailing `\r` from each line. -/
def rustLines (s : String) : List String :=
  match s.data with
  | [] => []
  | c :: cs =>
    let parts := splitChar '\n' (c :: cs)
    let parts := if (c :: cs).getLast? = some '\n' then parts.dropLast else parts
    parts.map fun l => ⟨if l.getLast? = some '\r' then l.dropLast else l⟩

/-- Scan of one prefix of the line list, from the body of `detect_version`
in `src/parser/csa/mod.rs` (lines 23-56): encoding comment selects V3,
comments are skipped, a line starting with `V` is matched against the four
version tokens, any other non-blank line stops the scan with no version. -/
def detectVersionLines : List String → Option Version
  | [] => none
  | line :: rest =>
    if strStartsWith (rustTrim line) "'CSA encoding=" then some Version.V3
    else if strStartsWith (rustTrim line) "'" then detectVersionLines rest
    else
      match (if strStartsWith (rustTrim line) "V" then
               if rustTrim line = "V3.0" then some Version.V3
               else if rustTrim line = "V2.2" then some Version.V2_2
               else if rustTrim line = "V2.1" then some Version.V2_1
               else if rustTrim line = "V2" then some Version.V2
               else none
             else none) with
      | some v => some v
      | none => if rustTrim line ≠ "" then none else detectVersionLines rest

/-- Embeds `detect_version` from `src/parser/csa/mod.rs`. -/
def detect_version (input : String) : Option Version :=
  detectVersionLines (rustLines input)

/-- Restatement of the dialect-detection contract in the specification's
own words (spec section 4.1): skip comments unless the comment is the
encoding declaration, which selects the newest dialect immediately; the
first non-blank non-comment line must be an exact version token selecting
its dialect; any other such line, or end of input, yields no dialect. -/
def detectVersionSpecLines : List String → Option Version
  | [] => none
  | line :: rest =>
    if strStartsWith (rustTrim line) "'CSA encoding=" then some Version.V3
    else if strStartsWith (rustTrim line) "'" then detectVersionSpecLines rest
    else if rustTrim line = "" then detectVersionSpecLines rest
    else if rustTrim line = "V2" then some Version.V2
    else if rustTrim line = "V2.1" then some Version.V2_1
    else if rustTrim line = "V2.2" then some Version.V2_2
    else if rustTrim line = "V3.0" then some Version.V3
    else none

/-- Spec-worded detector over the raw input. -/
def detect_version_spec (input : String) : Option Version :=
  detectVersionSpecLines (rustLines input)

theorem detectVersionLines_eq_spec (ls : List String) :
    detectVersionLines ls = detectVersionSpecLines ls := by
  induction ls with
  | nil => rfl
  | cons line rest ih =>
    simp only [detectVersionLines, detectVersionSpecLines]
    by_cases henc : (strStartsWith (rustTrim line) "'CSA encoding=") = true
    · simp [henc]
    · simp only [Bool.not_eq_true] at henc
      by_cases hcom : (strStartsWith (rustTrim line) "'") = true
      · simp [henc, hcom, ih]
      · simp only [Bool.not_eq_true] at hcom
        by_cases h30 : rustTrim line = "V3.0"
        · rw [h30]; rfl
        · by_cases h22 : rustTrim line = "V2.2"
          · rw [h22]; rfl
          · by_cases h21 : rustTrim line = "V2.1"
            · rw [h21]; rfl
            · by_cases h2 : rustTrim line = "V2"
              · rw [h2]; rfl
              · by_cases hblank : rustTrim line = ""
                · rw [hblank]
                  simpa using ih
                · simp [henc, hcom, h30, h22, h21, h2, hblank]

/-- Grammar rule labels, covering the node kinds the transformers in
`src/parser/csa/v2_2/mod.rs` and `src/parser/csa/v3/mod.rs` dispatch on
(the `Rule` enums generated from the dialects' pest grammars). -/
inductive Rule where
  | game_record
  | black_player
  | white_player
  | player_name
  | game_attr
  | attr_key
  | attr_value
  | datetime
  | date
  | time
  | timelimit
  | timelimit_hours
  | timelimit_minutes
  | timelimit_byoyomi
  | attr_text
  | position
  | handicap
  | handicap_piece
  | grid
  | grid_row1
  | grid_row2
  | grid_row3
  | grid_row4
  | grid_row5
  | grid_row6
  | grid_row7
  | grid_row8
  | grid_row9
  | minishogi_grid
  | mini_row1
  | mini_row2
  | mini_row3
  | mini_row4
  | mini_row5
  | wildcat_grid
  | wildcat_row1
  | wildcat_row2
  | wildcat_row3
  | wildcat_row4
  | wildcat_row5
  | grid_cell
  | grid_piece
  | grid_empty
  | piece_placement_lines
  | piece_placement
  | placement_piece
  | square
  | piece_type
  | color
  | side_to_move
  | move_records
  | move_record
  | normal_move
  | special_move
  | time_consumed
  | seconds_consumed
  | final_move
deriving DecidableEq

/-- Model of a pest `Pair`: a labeled syntax-tree node over a matched text
span, with its inner pairs as children. -/
inductive Pair where
  | mk (rule : Rule) (str : String) (children : List Pair)

/-- Model of `Pair::as_rule`. -/
def Pair.asRule : Pair → Rule
  | .mk r _ _ => r

/-- Model of `Pair::as_str`. -/
def Pair.asStr : Pair → String
  | .mk _ s _ => s

/-- Model of `Pair::into_inner` as the list of child pairs. -/
def Pair.intoInner : Pair → List Pair
  | .mk _ _ cs => cs

/-- Model of the decimal-digit test used by `char::to_digit(10)` and the
grammars' digit rules, stated over the character's code point. -/
def isDigitChar (c : Char) : Bool :=
  48 ≤ c.toNat && c.toNat ≤ 57

/-- Numeric value of a digit string, most significant digit first. -/
def digitsVal (cs : List Char) : Nat :=
  cs.foldl (fun acc c => acc * 10 + (c.toNat - 48)) 0

/-- Model of Rust's unsigned `str::parse` over a character list: an
optional leading `+`, then one or more decimal digits, failing on overflow
of the target width. -/
def parseUIntChars (bound : Nat) (cs : List Char) : Option Nat :=
  let ds := match cs with
    | c :: rest => if c = '+' then rest else c :: rest
    | [] => []
  if ds ≠ [] ∧ ds.all isDigitChar ∧ digitsVal ds < bound then some (digitsVal ds)
  else none

/-- Model of `str::parse::<u64>`. -/
def parseU64 (s : String) : Option Nat :=
  parseUIntChars (2 ^ 64) s.data

/-- Model of `str::parse::<u8>`. -/
def parseU8 (s : String) : Option Nat :=
  parseUIntChars (2 ^ 8) s.data

/-- Model of `str::parse::<i32>`: an optional sign, then decimal digits,
within the `i32` range. -/
def parseI32 (s : String) : Option Int :=
  match s.data with
  | '-' :: ds =>
    if ds ≠ [] ∧ ds.all isDigitChar ∧ digitsVal ds ≤ 2 ^ 31 then some (-(digitsVal ds : Int))
    else none
  | cs =>
    match parseUIntChars (2 ^ 31) cs with
    | some v => some (v : Int)
    | none => none

/-- Model of `char::to_digit(10)`. -/
def charToDigit (c : Char) : Option Nat :=
  if isDigitChar c then some (c.toNat - 48) else none

/-- Proleptic-Gregorian leap-year test, as used by `time::Date`. -/
def isLeapYear (y : Int) : Bool :=
  y % 4 = 0 && (y % 100 ≠ 0 || y % 400 = 0)

/-- Days in a calendar month (month given as 1-12). -/
def daysInMonth (y : Int) (m : Nat) : Nat :=
  if m = 2 then (if isLeapYear y then 29 else 28)
  else if m = 4 ∨ m = 6 ∨ m = 9 ∨ m = 11 then 30
  else if 1 ≤ m ∧ m ≤ 12 then 31
  else 0

/-- Model of `time::Month::try_from(u8)`: valid for 1-12. -/
def monthTryFrom (m : Nat) : Option Nat :=
  if 1 ≤ m ∧ m ≤ 12 then some m else none

/-- Model of `time::Date::from_calendar_date`: fails on out-of-range
days. -/
def Date.fromCalendarDate (y : Int) (m : Nat) (d : Nat) : Option Date :=
  if 1 ≤ m ∧ m ≤ 12 ∧ 1 ≤ d ∧ d ≤ daysInMonth y m then some ⟨y, m, d⟩ else none

/-- Model of `time::Time::from_hms`: fails on out-of-range components. -/
def TimeOfDay.fromHms (h m s : Nat) : Option TimeOfDay :=
  if h ≤ 23 ∧ m ≤ 59 ∧ s ≤ 59 then some ⟨h, m, s⟩ else none

namespace v2_2

/-- Parse error of the V2.2 parser (`v2_2::ParseError(pub String)`). -/
structure ParseError where
  msg : String
deriving DecidableEq

/-- Embeds `parse_color` from `src/parser/csa/v2_2/mod.rs`: any sign other
than `+` or `-` defaults to Black. -/
def parse_color (s : String) : Color :=
  if s = "+" then Color.Black
  else if s = "-" then Color.White
  else Color.Black

/-- Embeds `parse_square` from `src/parser/csa/v2_2/mod.rs`. The Rust code
indexes `chars[0]` and `chars[1]`, which panics when the token has fewer
than two characters; `none` models that panic branch. Non-digit characters
fall back to coordinate 0 via `to_digit(10).unwrap_or(0)`. -/
def parse_square_checked (s : String) : Option Square :=
  match s.data with
  | c0 :: c1 :: _ => some (Square.new ((charToDigit c0).getD 0) ((charToDigit c1).getD 0))
  | _ => none

/-- Total wrapper for `parse_square` used by the transformer; under the
grammar a square token always has two characters, where this agrees with
the Rust function (whose panic branch is then unreachable). -/
def parse_square (s : String) : Square :=
  (parse_square_checked s).getD (Square.new 0 0)

/-- Embeds `parse_piece_type` from `src/parser/csa/v2_2/mod.rs`: the
fifteen recognized codes, any other string defaulting to Pawn. -/
def parse_piece_type (s : String) : PieceType :=
  if s = "FU" then PieceType.Pawn
  else if s = "KY" then PieceType.Lance
  else if s = "KE" then PieceType.Knight
  else if s = "GI" then PieceType.Silver
  else if s = "KI" then PieceType.Gold
  else if s = "KA" then PieceType.Bishop
  else if s = "HI" then PieceType.Rook
  else if s = "OU" then PieceType.King
  else if s = "TO" then PieceType.ProPawn
  else if s = "NY" then PieceType.ProLance
  else if s = "NK" then PieceType.ProKnight
  else if s = "NG" then PieceType.ProSilver
  else if s = "UM" then PieceType.Horse
  else if s = "RY" then PieceType.Dragon
  else if s = "AL" then PieceType.All
  else PieceType.Pawn

/-- Embeds `parse_special_move` from `src/parser/csa/v2_2/mod.rs`: an
order-sensitive substring match over the event token. -/
def parse_special_move (s : String) : Action :=
  if strContains s "TORYO" then Action.Toryo
  else if strContains s "CHUDAN" then Action.Chudan
  else if strContains s "SENNICHITE" then Action.Sennichite
  else if strContains s "TIME_UP" then Action.TimeUp
  else if strContains s "ILLEGAL_MOVE" then Action.IllegalMove
  else if strContains s "+ILLEGAL_ACTION" then Action.IllegalAction Color.Black
  else if strContains s "-ILLEGAL_ACTION" then Action.IllegalAction Color.White
  else if strContains s "JISHOGI" then Action.Jishogi
  else if strContains s "KACHI" then Action.Kachi
  else if strContains s "HIKIWAKE" then Action.Hikiwake
  else if strContains s "MATTA" then Action.Matta
  else if strContains s "TSUMI" then Action.Tsumi
  else if strContains s "FUZUMI" then Action.Fuzumi
  else Action.Error

/-- Embeds `parse_timelimit` from `src/parser/csa/v2_2/mod.rs`: hours,
minutes and byoyomi sub-tokens with `unwrap_or(0)` fallbacks. -/
def parse_timelimit (pair : Pair) : TimeLimit :=
  let st := pair.intoInner.foldl
    (fun (acc : Nat × Nat × Nat) inner =>
      match inner.asRule with
      | .timelimit_hours => ((parseU64 inner.asStr).getD 0, acc.2.1, acc.2.2)
      | .timelimit_minutes => (acc.1, (parseU64 inner.asStr).getD 0, acc.2.2)
      | .timelimit_byoyomi => (acc.1, acc.2.1, (parseU64 inner.asStr).getD 0)
      | _ => acc)
    (0, 0, 0)
  { main_time := Duration.fromSecs (st.1 * 3600 + st.2.1 * 60)
    byoyomi := Duration.fromSecs st.2.2 }

/-- Embeds `try_parse_timelimit_str` from `src/parser/csa/v2_2/mod.rs`:
the free-text fallback, parsing `"hh:mm+ss"`. -/
def try_parse_timelimit_str (s : String) : Option TimeLimit :=
  match rustSplit '+' s with
  | [p0, p1] =>
    match rustSplit ':' p0 with
    | [t0, t1] => do
      let hours ← parseU64 t0
      let minutes ← parseU64 t1
      let byoyomi ← parseU64 p1
      some { main_time := Duration.fromSecs (hours * 3600 + minutes * 60)
             byoyomi := Duration.fromSecs byoyomi }
    | _ => none
  | _ => none

/-- Embeds `parse_datetime_parts` from `src/parser/csa/v2_2/mod.rs`: a
`y/m/d` date and an optional `h:m:s` time; an ill-formed time of exactly
three fields propagates failure (the `?` operator), while a time with a
different field count yields no time-of-day. -/
def parse_datetime_parts (date_str : String) (time_str : Option String) : Option Time :=
  match rustSplit '/' date_str with
  | [ys, ms, ds] => do
    let year ← parseI32 ys
    let month ← parseU8 ms
    let month ← monthTryFrom month
    let day ← parseU8 ds
    let date ← Date.fromCalendarDate year month day
    let timeOpt ← (match time_str with
      | none => some (none : Option TimeOfDay)
      | some ts =>
        match rustSplit ':' ts with
        | [hh, mm, ss] => do
          let hour ← parseU8 hh
          let minute ← parseU8 mm
          let second ← parseU8 ss
          let t ← TimeOfDay.fromHms hour minute second
          some (some t)
        | _ => some (none : Option TimeOfDay))
    some { date := date, time := timeOpt }
  | _ => none

/-- Embeds `try_parse_datetime_str` from `src/parser/csa/v2_2/mod.rs`: the
free-text fallback, splitting `"date[ time]"` at a space. -/
def try_parse_datetime_str (s : String) : Option Time :=
  match rustSplit ' ' s with
  | [] => none
  | d :: rest => parse_datetime_parts d rest.head?

/-- Embeds the scanning loop of `parse_datetime` from
`src/parser/csa/v2_2/mod.rs`: collect the last `date` and `time`
children, then delegate. -/
def parse_datetime (pair : Pair) : Option Time :=
  let st := pair.intoInner.foldl
    (fun (acc : Option String × Option String) inner =>
      match inner.asRule with
      | .date => (some inner.asStr, acc.2)
      | .time => (acc.1, some inner.asStr)
      | _ => acc)
    (none, none)
  match st.1 with
  | some d => parse_datetime_parts d st.2
  | none => none

/-- Scanning loop of `parse_player_name`: the first non-empty
`player_name` child, if any. -/
def playerNameFrom : List Pair → Option String
  | [] => none
  | inner :: rest =>
    if inner.asRule = Rule.player_name ∧ inner.asStr ≠ "" then some inner.asStr
    else playerNameFrom rest

/-- Embeds `parse_player_name` from `src/parser/csa/v2_2/mod.rs`. -/
def parse_player_name (pair : Pair) : Option String :=
  playerNameFrom pair.intoInner

/-- Dispatch on one `attr_value` child for `parse_game_attr`, updating the
record according to the current key. -/
def applyAttrValue (key : String) (value_inner : Pair) (record : GameRecord) : GameRecord :=
  match value_inner.asRule with
  | .datetime =>
    let time := parse_datetime value_inner
    if key = "START_TIME" then { record with start_time := time }
    else if key = "END_TIME" then { record with end_time := time }
    else record
  | .timelimit =>
    if key = "TIME_LIMIT" then { record with time_limit := some (parse_timelimit value_inner) }
    else record
  | .attr_text =>
    let text := value_inner.asStr
    if key = "EVENT" then { record with event := some text }
    else if key = "SITE" then { record with site := some text }
    else if key = "OPENING" then { record with opening := some text }
    else if key = "START_TIME" then { record with start_time := try_parse_datetime_str text }
    else if key = "END_TIME" then { record with end_time := try_parse_datetime_str text }
    else if key = "TIME_LIMIT" then { record with time_limit := try_parse_timelimit_str text }
    else record
  | _ => record

/-- One step of the key/value fold of `parse_game_attr`. -/
def gameAttrStep (acc : String × GameRecord) (inner : Pair) : String × GameRecord :=
  match inner.asRule with
  | .attr_key => (inner.asStr, acc.2)
  | .attr_value =>
    (acc.1, inner.intoInner.foldl (fun r2 vi => applyAttrValue acc.1 vi r2) acc.2)
  | _ => acc

/-- Embeds `parse_game_attr` from `src/parser/csa/v2_2/mod.rs`: track the
key string, then fold each value child into the record. -/
def parse_game_attr (pair : Pair) (record : GameRecord) : GameRecord :=
  (pair.intoInner.foldl gameAttrStep ("", record)).2

/-- Inner loop of `parse_handicap`: square and piece sub-tokens of one
`handicap_piece` node, defaulting to (0,0) and Pawn. -/
def handicapPieceOf (inner : Pair) : Square × PieceType :=
  inner.intoInner.foldl
    (fun (acc : Square × PieceType) pi =>
      match pi.asRule with
      | .square => (parse_square pi.asStr, acc.2)
      | .piece_type => (acc.1, parse_piece_type pi.asStr)
      | _ => acc)
    (Square.new 0 0, PieceType.Pawn)

/-- Embeds `parse_handicap` from `src/parser/csa/v2_2/mod.rs`. -/
def parse_handicap (pair : Pair) : List (Square × PieceType) :=
  pair.intoInner.foldl
    (fun pieces inner =>
      if inner.asRule = Rule.handicap_piece then pieces ++ [handicapPieceOf inner]
      else pieces)
    []

/-- Embeds `parse_grid_piece` from `src/parser/csa/v2_2/mod.rs`. -/
def parse_grid_piece (pair : Pair) : Color × PieceType :=
  pair.intoInner.foldl
    (fun (acc : Color × PieceType) inner =>
      match inner.asRule with
      | .color => (parse_color inner.asStr, acc.2)
      | .piece_type => (acc.1, parse_piece_type inner.asStr)
      | _ => acc)
    (Color.Black, PieceType.Pawn)

/-- Scanning loop of `parse_grid_cell`: the first `grid_piece` or
`grid_empty` child decides the cell. -/
def gridCellFrom : List Pair → Option (Color × PieceType)
  | [] => none
  | inner :: rest =>
    match inner.asRule with
    | .grid_piece => some (parse_grid_piece inner)
    | .grid_empty => none
    | _ => gridCellFrom rest

/-- Embeds `parse_grid_cell` from `src/parser/csa/v2_2/mod.rs`. -/
def parse_grid_cell (pair : Pair) : Option (Color × PieceType) :=
  gridCellFrom pair.intoInner

/-- Inner cell loop shared by the three grid parsers: walk the row's
children with a running column counter, writing each `grid_cell` while the
counter is below the row width and ignoring excess cells. -/
def fillCells (width rowIdx : Nat) : List Pair → Nat → Grid → Grid
  | [], _, g => g
  | cell :: rest, col, g =>
    if cell.asRule = Rule.grid_cell ∧ col < width then
      fillCells width rowIdx rest (col + 1) (g.setCell rowIdx col (parse_grid_cell cell))
    else fillCells width rowIdx rest col g

/-- Row-rule table of `parse_grid`. -/
def gridRowNum (r : Rule) : Option Nat :=
  match r with
  | .grid_row1 => some 0
  | .grid_row2 => some 1
  | .grid_row3 => some 2
  | .grid_row4 => some 3
  | .grid_row5 => some 4
  | .grid_row6 => some 5
  | .grid_row7 => some 6
  | .grid_row8 => some 7
  | .grid_row9 => some 8
  | _ => none

/-- Embeds `parse_grid` from `src/parser/csa/v2_2/mod.rs`: a 9x9 grid
filled row by row. -/
def parse_grid (pair : Pair) : Grid :=
  pair.intoInner.foldl
    (fun g inner =>
      match gridRowNum inner.asRule with
      | some rowIdx => fillCells 9 rowIdx inner.intoInner 0 g
      | none => g)
    (Grid.empty 9 9)

/-- Row-rule table of `parse_minishogi_grid`. -/
def miniRowNum (r : Rule) : Option Nat :=
  match r with
  | .mini_row1 => some 0
  | .mini_row2 => some 1
  | .mini_row3 => some 2
  | .mini_row4 => some 3
  | .mini_row5 => some 4
  | _ => none

/-- Embeds `parse_minishogi_grid` from `src/parser/csa/v2_2/mod.rs`: a 5x5
grid filled row by row. -/
def parse_minishogi_grid (pair : Pair) : Grid :=
  pair.intoInner.foldl
    (fun g inner =>
      match miniRowNum inner.asRule with
      | some rowIdx => fillCells 5 rowIdx inner.intoInner 0 g
      | none => g)
    (Grid.empty 5 5)

/-- Row-rule table of `parse_wildcat_grid`. -/
def wildcatRowNum (r : Rule) : Option Nat :=
  match r with
  | .wildcat_row1 => some 0
  | .wildcat_row2 => some 1
  | .wildcat_row3 => some 2
  | .wildcat_row4 => some 3
  | .wildcat_row5 => some 4
  | _ => none

/-- Embeds `parse_wildcat_grid` from `src/parser/csa/v2_2/mod.rs`: a 3x5
grid (3 files, 5 ranks) filled row by row. -/
def parse_wildcat_grid (pair : Pair) : Grid :=
  pair.intoInner.foldl
    (fun g inner =>
      match wildcatRowNum inner.asRule with
      | some rowIdx => fillCells 3 rowIdx inner.intoInner 0 g
      | none => g)
    (Grid.empty 5 3)

/-- Embeds `parse_single_placement` from `src/parser/csa/v2_2/mod.rs`: one
placement line's color sign (written through a `&mut` out-parameter in
Rust, so its final value is what the caller reads) and its square/piece
pairs. -/
def parse_single_placement (pair : Pair) : Color × List (Square × PieceType) :=
  pair.intoInner.foldl
    (fun (acc : Color × List (Square × PieceType)) inner =>
      match inner.asRule with
      | .color => (parse_color inner.asStr, acc.2)
      | .placement_piece =>
        let piece := inner.intoInner.foldl
          (fun (p : Square × PieceType) pi =>
            match pi.asRule with
            | .square => (parse_square pi.asStr, p.2)
            | .piece_type => (p.1, parse_piece_type pi.asStr)
            | _ => p)
          (Square.new 0 0, PieceType.Pawn)
        (acc.1, acc.2 ++ [piece])
      | _ => acc)
    (Color.Black, [])

/-- Embeds `parse_piece_placements` from `src/parser/csa/v2_2/mod.rs`. -/
def parse_piece_placements (pair : Pair) : List (Color × Square × PieceType) :=
  pair.intoInner.foldl
    (fun placements inner =>
      if inner.asRule = Rule.piece_placement then
        let cp := parse_single_placement inner
        placements ++ cp.2.map fun sp => (cp.1, sp.1, sp.2)
      else placements)
    []

/-- One step of the section dispatch of `parse_position`. -/
def positionStep (pos : Position) (inner : Pair) : Position :=
  match inner.asRule with
  | .handicap => { pos with drop_pieces := parse_handicap inner }
  | .grid => { pos with bulk := some (parse_grid inner) }
  | .minishogi_grid => { pos with minishogi_bulk := some (parse_minishogi_grid inner) }
  | .wildcat_grid => { pos with wildcat_bulk := some (parse_wildcat_grid inner) }
  | .piece_placement_lines => { pos with add_pieces := parse_piece_placements inner }
  | _ => pos

/-- Embeds `parse_position` from `src/parser/csa/v2_2/mod.rs`: handicap,
one of the three grids, and placement lines, each set by the matching
child. -/
def parse_position (pair : Pair) : Position :=
  pair.intoInner.foldl positionStep Position.default

/-- Scanning loop of `parse_side_to_move`: the first `color` child. -/
def sideToMoveFrom : List Pair → Color
  | [] => Color.Black
  | inner :: rest =>
    if inner.asRule = Rule.color then parse_color inner.asStr
    else sideToMoveFrom rest

/-- Embeds `parse_side_to_move` from `src/parser/csa/v2_2/mod.rs`. -/
def parse_side_to_move (pair : Pair) : Color :=
  sideToMoveFrom pair.intoInner

/-- Embeds `parse_normal_move` from `src/parser/csa/v2_2/mod.rs`: color,
two squares (origin then destination) and a piece type. -/
def parse_normal_move (pair : Pair) : Action :=
  let st := pair.intoInner.foldl
    (fun (acc : Color × Square × Square × PieceType × Nat) inner =>
      match inner.asRule with
      | .color => (parse_color inner.asStr, acc.2)
      | .square =>
        if acc.2.2.2.2 = 0 then
          (acc.1, parse_square inner.asStr, acc.2.2.1, acc.2.2.2.1, acc.2.2.2.2 + 1)
        else
          (acc.1, acc.2.1, parse_square inner.asStr, acc.2.2.2.1, acc.2.2.2.2 + 1)
      | .piece_type => (acc.1, acc.2.1, acc.2.2.1, parse_piece_type inner.asStr, acc.2.2.2.2)
      | _ => acc)
    (Color.Black, Square.new 0 0, Square.new 0 0, PieceType.Pawn, 0)
  Action.Move st.1 st.2.1 st.2.2.1 st.2.2.2.1

/-- Scanning loop of `parse_move_record_action`: the first `normal_move`
or `special_move` child decides the action, else `Error`. -/
def moveRecordActionFrom : List Pair → Action
  | [] => Action.Error
  | inner :: rest =>
    match inner.asRule with
    | .normal_move => parse_normal_move inner
    | .special_move => parse_special_move inner.asStr
    | _ => moveRecordActionFrom rest

/-- Embeds `parse_move_record_action` from `src/parser/csa/v2_2/mod.rs`. -/
def parse_move_record_action (pair : Pair) : Action :=
  moveRecordActionFrom pair.intoInner

/-- Scanning loop of `parse_time_consumed`: the first `seconds_consumed`
child as a seconds count with `unwrap_or(0)` fallback. -/
def timeConsumedFrom : List Pair → Duration
  | [] => Duration.fromSecs 0
  | inner :: rest =>
    if inner.asRule = Rule.seconds_consumed then Duration.fromSecs ((parseU64 inner.asStr).getD 0)
    else timeConsumedFrom rest

/-- Embeds `parse_time_consumed` from `src/parser/csa/v2_2/mod.rs`. -/
def parse_time_consumed (pair : Pair) : Duration :=
  timeConsumedFrom pair.intoInner

/-- Embeds `parse_move_records` from `src/parser/csa/v2_2/mod.rs`: the
pending-action fold pairing each action with an optional following elapsed
time, flushing a still-pending action at the end. -/
def parse_move_records (pair : Pair) : List MoveRecord :=
  let st := pair.intoInner.foldl
    (fun (acc : List MoveRecord × Option Action) inner =>
      match inner.asRule with
      | .move_record =>
        let flushed : List MoveRecord :=
          match acc.2 with
          | some action => acc.1 ++ [{ action := action, time := none }]
          | none => acc.1
        (flushed, some (parse_move_record_action inner))
      | .time_consumed =>
        match acc.2 with
        | some action =>
          (acc.1 ++ [{ action := action, time := some (parse_time_consumed inner) }], none)
        | none => acc
      | _ => acc)
    ([], none)
  match st.2 with
  | some action => st.1 ++ [{ action := action, time := none }]
  | none => st.1

/-- One step of the section dispatch in `parse`
(`src/parser/csa/v2_2/mod.rs`, lines 36-69). -/
def transformStep (record : GameRecord) (inner : Pair) : GameRecord :=
  match inner.asRule with
  | .black_player => { record with black_player := parse_player_name inner }
  | .white_player => { record with white_player := parse_player_name inner }
  | .game_attr => parse_game_attr inner record
  | .position => { record with start_pos := parse_position inner }
  | .side_to_move =>
    { record with start_pos := { record.start_pos with side_to_move := parse_side_to_move inner } }
  | .move_records => { record with moves := parse_move_records inner }
  | .final_move =>
    { record with moves := record.moves ++ [{ action := parse_move_record_action inner, time := none }] }
  | _ => record

/-- Semantic transformation of `parse`: walk the root `game_record` node's
children once, in document order. -/
def transform (root : Pair) : GameRecord :=
  if root.asRule = Rule.game_record then root.intoInner.foldl transformStep GameRecord.default
  else GameRecord.default

end v2_2

namespace v3

/-- Parse error of the V3.0 parser (`v3::ParseError(pub String)`). -/
structure ParseError where
  msg : String
deriving DecidableEq

/-- Embeds `parse_color` from `src/parser/csa/v3/mod.rs`. -/
def parse_color (s : String) : Color :=
  if s = "+" then Color.Black
  else if s = "-" then Color.White
  else Color.Black

/-- Embeds `parse_square` from `src/parser/csa/v3/mod.rs`; as in V2.2 the
`none` case models the panic on a token of fewer than two characters. -/
def parse_square_checked (s : String) : Option Square :=
  match s.data with
  | c0 :: c1 :: _ => some (Square.new ((charToDigit c0).getD 0) ((charToDigit c1).getD 0))
  | _ => none

/-- Total wrapper for `parse_square` used by the transformer; agrees with
the Rust function on the two-character tokens the grammar produces. -/
def parse_square (s : String) : Square :=
  (parse_square_checked s).getD (Square.new 0 0)

/-- Embeds `parse_piece_type` from `src/parser/csa/v3/mod.rs`. -/
def parse_piece_type (s : String) : PieceType :=
  if s = "FU" then PieceType.Pawn
  else if s = "KY" then PieceType.Lance
  else if s = "KE" then PieceType.Knight
  else if s = "GI" then PieceType.Silver
  else if s = "KI" then PieceType.Gold
  else if s = "KA" then PieceType.Bishop
  else if s = "HI" then PieceType.Rook
  else if s = "OU" then PieceType.King
  else if s = "TO" then PieceType.ProPawn
  else if s = "NY" then PieceType.ProLance
  else if s = "NK" then PieceType.ProKnight
  else if s = "NG" then PieceType.ProSilver
  else if s = "UM" then PieceType.Horse
  else if s = "RY" then PieceType.Dragon
  else if s = "AL" then PieceType.All
  else PieceType.Pawn

/-- Embeds `parse_special_move` from `src/parser/csa/v3/mod.rs`: V3.0
added `MAX_MOVES` (mapped to `Error` pending a domain-model extension) and
removed `MATTA`. -/
def parse_special_move (s : String) : Action :=
  if strContains s "TORYO" then Action.Toryo
  else if strContains s "CHUDAN" then Action.Chudan
  else if strContains s "SENNICHITE" then Action.Sennichite
  else if strContains s "TIME_UP" then Action.TimeUp
  else if strContains s "ILLEGAL_MOVE" then Action.IllegalMove
  else if strContains s "+ILLEGAL_ACTION" then Action.IllegalAction Color.Black
  else if strContains s "-ILLEGAL_ACTION" then Action.IllegalAction Color.White
  else if strContains s "JISHOGI" then Action.Jishogi
  else if strContains s "KACHI" then Action.Kachi
  else if strContains s "HIKIWAKE" then Action.Hikiwake
  else if strContains s "MAX_MOVES" then Action.Error
  else if strContains s "TSUMI" then Action.Tsumi
  else if strContains s "FUZUMI" then Action.Fuzumi
  else Action.Error

/-- Embeds `parse_timelimit` from `src/parser/csa/v3/mod.rs`. -/
def parse_timelimit (pair : Pair) : TimeLimit :=
  let st := pair.intoInner.foldl
    (fun (acc : Nat × Nat × Nat) inner =>
      match inner.asRule with
      | .timelimit_hours => ((parseU64 inner.asStr).getD 0, acc.2.1, acc.2.2)
      | .timelimit_minutes => (acc.1, (parseU64 inner.asStr).getD 0, acc.2.2)
      | .timelimit_byoyomi => (acc.1, acc.2.1, (parseU64 inner.asStr).getD 0)
      | _ => acc)
    (0, 0, 0)
  { main_time := Duration.fromSecs (st.1 * 3600 + st.2.1 * 60)
    byoyomi := Duration.fromSecs st.2.2 }

/-- Embeds the date/time closure of `parse_datetime` from
`src/parser/csa/v3/mod.rs`: unlike V2.2, an ill-formed time of day yields
no time-of-day rather than failing the whole datetime (`.ok()` without
`?`). -/
def parse_datetime_parts (date_str : String) (time_str : Option String) : Option Time :=
  match rustSplit '/' date_str with
  | [ys, ms, ds] => do
    let year ← parseI32 ys
    let month ← parseU8 ms
    let month ← monthTryFrom month
    let day ← parseU8 ds
    let date ← Date.fromCalendarDate year month day
    let timeOpt := time_str.bind fun ts =>
      match rustSplit ':' ts with
      | [hh, mm, ss] => do
        let hour ← parseU8 hh
        let minute ← parseU8 mm
        let second ← parseU8 ss
        TimeOfDay.fromHms hour minute second
      | _ => none
    some { date := date, time := timeOpt }
  | _ => none

/-- Embeds the scanning loop of `parse_datetime` from
`src/parser/csa/v3/mod.rs`. -/
def parse_datetime (pair : Pair) : Option Time :=
  let st := pair.intoInner.foldl
    (fun (acc : Option String × Option String) inner =>
      match inner.asRule with
      | .date => (some inner.asStr, acc.2)
      | .time => (acc.1, some inner.asStr)
      | _ => acc)
    (none, none)
  match st.1 with
  | some d => parse_datetime_parts d st.2
  | none => none

/-- Embeds `parse_player_name` from `src/parser/csa/v3/mod.rs`. -/
def parse_player_name (pair : Pair) : Option String :=
  v2_2.playerNameFrom pair.intoInner

/-- Dispatch on one `attr_value` child for V3.0's `parse_game_attr`: the
free-text arm recognizes only `EVENT`, `SITE` and `OPENING` (the temporal
keys have no free-text fallback in this dialect's transformer). -/
def applyAttrValue (key : String) (value_inner : Pair) (record : GameRecord) : GameRecord :=
  match value_inner.asRule with
  | .datetime =>
    let time := parse_datetime value_inner
    if key = "START_TIME" then { record with start_time := time }
    else if key = "END_TIME" then { record with end_time := time }
    else record
  | .timelimit =>
    if key = "TIME_LIMIT" then { record with time_limit := some (parse_timelimit value_inner) }
    else record
  | .attr_text =>
    let text := value_inner.asStr
    if key = "EVENT" then { record with event := some text }
    else if key = "SITE" then { record with site := some text }
    else if key = "OPENING" then { record with opening := some text }
    else record
  | _ => record

/-- One step of the key/value fold of V3.0's `parse_game_attr`. -/
def gameAttrStep (acc : String × GameRecord) (inner : Pair) : String × GameRecord :=
  match inner.asRule with
  | .attr_key => (inner.asStr, acc.2)
  | .attr_value =>
    (acc.1, inner.intoInner.foldl (fun r2 vi => applyAttrValue acc.1 vi r2) acc.2)
  | _ => acc

/-- Embeds `parse_game_attr` from `src/parser/csa/v3/mod.rs`. -/
def parse_game_attr (pair : Pair) (record : GameRecord) : GameRecord :=
  (pair.intoInner.foldl gameAttrStep ("", record)).2

/-- Inner loop of V3.0's `parse_handicap`. -/
def handicapPieceOf (inner : Pair) : Square × PieceType :=
  inner.intoInner.foldl
    (fun (acc : Square × PieceType) pi =>
      match pi.asRule with
      | .square => (parse_square pi.asStr, acc.2)
      | .piece_type => (acc.1, parse_piece_type pi.asStr)
      | _ => acc)
    (Square.new 0 0, PieceType.Pawn)

/-- Embeds `parse_handicap` from `src/parser/csa/v3/mod.rs`. -/
def parse_handicap (pair : Pair) : List (Square × PieceType) :=
  pair.intoInner.foldl
    (fun pieces inner =>
      if inner.asRule = Rule.handicap_piece then pieces ++ [handicapPieceOf inner]
      else pieces)
    []

/-- Embeds `parse_grid_cell` from `src/parser/csa/v3/mod.rs` (the piece
parse is inlined in the Rust source). -/
def gridCellFrom : List Pair → Option (Color × PieceType)
  | [] => none
  | inner :: rest =>
    match inner.asRule with
    | .grid_piece =>
      some (inner.intoInner.foldl
        (fun (acc : Color × PieceType) p =>
          match p.asRule with
          | .color => (parse_color p.asStr, acc.2)
          | .piece_type => (acc.1, parse_piece_type p.asStr)
          | _ => acc)
        (Color.Black, PieceType.Pawn))
    | .grid_empty => none
    | _ => gridCellFrom rest

/-- Embeds `parse_grid_cell` from `src/parser/csa/v3/mod.rs`. -/
def parse_grid_cell (pair : Pair) : Option (Color × PieceType) :=
  gridCellFrom pair.intoInner

/-- Inner cell loop of V3.0's `parse_grid`, with the same bounds-guarded
column counter as V2.2. -/
def fillCells (rowIdx : Nat) : List Pair → Nat → Grid → Grid
  | [], _, g => g
  | cell :: rest, col, g =>
    if cell.asRule = Rule.grid_cell ∧ col < 9 then
      fillCells rowIdx rest (col + 1) (g.setCell rowIdx col (parse_grid_cell cell))
    else fillCells rowIdx rest col g

/-- Embeds `parse_grid` from `src/parser/csa/v3/mod.rs`: the only board
shape of this dialect is the standard 9x9 grid. -/
def parse_grid (pair : Pair) : Grid :=
  pair.intoInner.foldl
    (fun g inner =>
      match v2_2.gridRowNum inner.asRule with
      | some rowIdx => fillCells rowIdx inner.intoInner 0 g
      | none => g)
    (Grid.empty 9 9)

/-- Embeds `parse_piece_placements` from `src/parser/csa/v3/mod.rs`: here
each placement piece is pushed with the color seen so far (an inline loop
rather than V2.2's out-parameter helper). -/
def parse_piece_placements (pair : Pair) : List (Color × Square × PieceType) :=
  pair.intoInner.foldl
    (fun placements inner =>
      if inner.asRule = Rule.piece_placement then
        (inner.intoInner.foldl
          (fun (acc : Color × List (Color × Square × PieceType)) p =>
            match p.asRule with
            | .color => (parse_color p.asStr, acc.2)
            | .placement_piece =>
              let sp := p.intoInner.foldl
                (fun (q : Square × PieceType) pp =>
                  match pp.asRule with
                  | .square => (parse_square pp.asStr, q.2)
                  | .piece_type => (q.1, parse_piece_type pp.asStr)
                  | _ => q)
                (Square.new 0 0, PieceType.Pawn)
              (acc.1, acc.2 ++ [(acc.1, sp.1, sp.2)])
            | _ => acc)
          (Color.Black, placements)).2
      else placements)
    []

/-- One step of the section dispatch of V3.0's `parse_position`. -/
def positionStep (pos : Position) (inner : Pair) : Position :=
  match inner.asRule with
  | .handicap => { pos with drop_pieces := parse_handicap inner }
  | .grid => { pos with bulk := some (parse_grid inner) }
  | .piece_placement_lines => { pos with add_pieces := parse_piece_placements inner }
  | _ => pos

/-- Embeds `parse_position` from `src/parser/csa/v3/mod.rs`: this dialect
has no minishogi or wildcat grid section. -/
def parse_position (pair : Pair) : Position :=
  pair.intoInner.foldl positionStep Position.default

/-- Embeds `parse_side_to_move` from `src/parser/csa/v3/mod.rs`. -/
def parse_side_to_move (pair : Pair) : Color :=
  v2_2.sideToMoveFrom pair.intoInner

/-- Embeds `parse_normal_move` from `src/parser/csa/v3/mod.rs`. -/
def parse_normal_move (pair : Pair) : Action :=
  let st := pair.intoInner.foldl
    (fun (acc : Color × Square × Square × PieceType × Nat) inner =>
      match inner.asRule with
      | .color => (parse_color inner.asStr, acc.2)
      | .square =>
        if acc.2.2.2.2 = 0 then
          (acc.1, parse_square inner.asStr, acc.2.2.1, acc.2.2.2.1, acc.2.2.2.2 + 1)
        else
          (acc.1, acc.2.1, parse_square inner.asStr, acc.2.2.2.1, acc.2.2.2.2 + 1)
      | .piece_type => (acc.1, acc.2.1, acc.2.2.1, parse_piece_type inner.asStr, acc.2.2.2.2)
      | _ => acc)
    (Color.Black, Square.new 0 0, Square.new 0 0, PieceType.Pawn, 0)
  Action.Move st.1 st.2.1 st.2.2.1 st.2.2.2.1

/-- Scanning loop of V3.0's `parse_move_record_action`. -/
def moveRecordActionFrom : List Pair → Action
  | [] => Action.Error
  | inner :: rest =>
    match inner.asRule with
    | .normal_move => parse_normal_move inner
    | .special_move => parse_special_move inner.asStr
    | _ => moveRecordActionFrom rest

/-- Embeds `parse_move_record_action` from `src/parser/csa/v3/mod.rs`. -/
def parse_move_record_action (pair : Pair) : Action :=
  moveRecordActionFrom pair.intoInner

/-- Millisecond-capable elapsed-time conversion of V3.0's
`parse_time_consumed` on one `seconds_consumed` token: a fractional suffix
of 1, 2 or 3 digits becomes tenths, hundredths or thousandths; any longer
suffix contributes 0 milliseconds. -/
def parse_time_consumed_str (s : String) : Duration :=
  let cs := s.data
  let intpart := cs.takeWhile fun c => c ≠ '.'
  if intpart.length = cs.length then Duration.fromSecs ((parseU64 s).getD 0)
  else
    let frac := cs.drop (intpart.length + 1)
    let secs := (parseUIntChars (2 ^ 64) intpart).getD 0
    let millis :=
      if frac.length = 1 then ((parseUIntChars (2 ^ 64) frac).getD 0) * 100
      else if frac.length = 2 then ((parseUIntChars (2 ^ 64) frac).getD 0) * 10
      else if frac.length = 3 then (parseUIntChars (2 ^ 64) frac).getD 0
      else 0
    Duration.fromMillis (secs * 1000 + millis)

/-- Scanning loop of V3.0's `parse_time_consumed`. -/
def timeConsumedFrom : List Pair → Duration
  | [] => Duration.fromSecs 0
  | inner :: rest =>
    if inner.asRule = Rule.seconds_consumed then parse_time_consumed_str inner.asStr
    else timeConsumedFrom rest

/-- Embeds `parse_time_consumed` from `src/parser/csa/v3/mod.rs`. -/
def parse_time_consumed (pair : Pair) : Duration :=
  timeConsumedFrom pair.intoInner

/-- Embeds `parse_move_records` from `src/parser/csa/v3/mod.rs`. -/
def parse_move_records (pair : Pair) : List MoveRecord :=
  let st := pair.intoInner.foldl
    (fun (acc : List MoveRecord × Option Action) inner =>
      match inner.asRule with
      | .move_record =>
        let flushed : List MoveRecord :=
          match acc.2 with
          | some action => acc.1 ++ [{ action := action, time := none }]
          | none => acc.1
        (flushed, some (parse_move_record_action inner))
      | .time_consumed =>
        match acc.2 with
        | some action =>
          (acc.1 ++ [{ action := action, time := some (parse_time_consumed inner) }], none)
        | none => acc
      | _ => acc)
    ([], none)
  match st.2 with
  | some action => st.1 ++ [{ action := action, time := none }]
  | none => st.1

/-- One step of the section dispatch in V3.0's `parse`
(`src/parser/csa/v3/mod.rs`, lines 36-63). -/
def transformStep (record : GameRecord) (inner : Pair) : GameRecord :=
  match inner.asRule with
  | .black_player => { record with black_player := parse_player_name inner }
  | .white_player => { record with white_player := parse_player_name inner }
  | .game_attr => parse_game_attr inner record
  | .position => { record with start_pos := parse_position inner }
  | .side_to_move =>
    { record with start_pos := { record.start_pos with side_to_move := parse_side_to_move inner } }
  | .move_records => { record with moves := parse_move_records inner }
  | .final_move =>
    { record with moves := record.moves ++ [{ action := parse_move_record_action inner, time := none }] }
  | _ => record

/-- Semantic transformation of V3.0's `parse`. -/
def transform (root : Pair) : GameRecord :=
  if root.asRule = Rule.game_record then root.intoInner.foldl transformStep GameRecord.default
  else GameRecord.default

end v3

/-- Modelled from the spec: the declarative pest grammar files
(`parser/csa/*/grammar.pest`) are not among the source files, so the
grammar-level parse of section 4.2 is modelled here as a line-oriented
recognizer parameterized by the dialect deltas named in sections 4.3-4.4:
the version token, whether the reduced 5x5/3x5 board shapes are legal, and
whether elapsed-time tokens may carry a fractional suffix. -/
structure GrammarConfig where
  versionTok : String
  reducedBoards : Bool
  fracTime : Bool

/-- Modelled from the spec: the fifteen piece-type codes of the grammars'
`piece_type` rule (spec section 3). -/
def pieceCodes : List String :=
  ["FU", "KY", "KE", "GI", "KI", "KA", "HI", "OU", "TO", "NY", "NK", "NG", "UM", "RY", "AL"]

/-- Modelled from the spec: whether two characters form a recognized
piece-type code. -/
def validPieceCode (a b : Char) : Bool :=
  pieceCodes.contains ⟨[a, b]⟩

/-- Modelled from the spec: whether a string is one or more decimal
digits (the grammars' numeric sub-token rules). -/
def digitStr (s : String) : Bool :=
  s.data ≠ [] && s.data.all isDigitChar

/-- Modelled from the spec: syntax-tree leaf for a color sign. -/
def mkColorPair (c : Char) : Pair :=
  Pair.mk Rule.color ⟨[c]⟩ []

/-- Modelled from the spec: grammar lines of the form `P1`..`P9` carry
3-character cells (`+XX`, `-XX` or a starred blank); this parses a row's
tail into `grid_cell` nodes. -/
def cellsOfChunks : List Char → Option (List Pair)
  | [] => some []
  | a :: b :: c :: rest =>
    if a = ' ' ∧ b = '*' ∧ c = ' ' then
      (cellsOfChunks rest).map fun cs =>
        Pair.mk Rule.grid_cell ⟨[a, b, c]⟩ [Pair.mk Rule.grid_empty ⟨[a, b, c]⟩ []] :: cs
    else if (a = '+' ∨ a = '-') ∧ validPieceCode b c then
      (cellsOfChunks rest).map fun cs =>
        Pair.mk Rule.grid_cell ⟨[a, b, c]⟩
          [Pair.mk Rule.grid_piece ⟨[a, b, c]⟩ [mkColorPair a, Pair.mk Rule.piece_type ⟨[b, c]⟩ []]] :: cs
    else none
  | _ => none

/-- Modelled from the spec: the handicap tail of a `PI` line is a sequence
of square/piece 4-character chunks. -/
def handicapChunks : List Char → Option (List Pair)
  | [] => some []
  | a :: b :: c :: d :: rest =>
    if isDigitChar a ∧ isDigitChar b ∧ validPieceCode c d then
      (handicapChunks rest).map fun ps =>
        Pair.mk Rule.handicap_piece ⟨[a, b, c, d]⟩
          [Pair.mk Rule.square ⟨[a, b]⟩ [], Pair.mk Rule.piece_type ⟨[c, d]⟩ []] :: ps
    else none
  | _ => none

/-- Modelled from the spec: the tail of a `P+`/`P-` placement line is a
sequence of square/piece 4-character chunks. -/
def placementChunks : List Char → Option (List Pair)
  | [] => some []
  | a :: b :: c :: d :: rest =>
    if isDigitChar a ∧ isDigitChar b ∧ validPieceCode c d then
      (placementChunks rest).map fun ps =>
        Pair.mk Rule.placement_piece ⟨[a, b, c, d]⟩
          [Pair.mk Rule.square ⟨[a, b]⟩ [], Pair.mk Rule.piece_type ⟨[c, d]⟩ []] :: ps
    else none
  | _ => none

/-- Modelled from the spec: whether a string has the `y/m/d` digit shape
of the grammars' `date` rule. -/
def dateShape (s : String) : Bool :=
  match rustSplit '/' s with
  | [y, m, d] => digitStr y && digitStr m && digitStr d
  | _ => false

/-- Modelled from the spec: whether a string has the `h:m:s` digit shape
of the grammars' `time` rule. -/
def timeShape (s : String) : Bool :=
  match rustSplit ':' s with
  | [h, m, s2] => digitStr h && digitStr m && digitStr s2
  | _ => false

/-- Modelled from the spec: an attribute value is a structured datetime
node, a structured time-limit node, or free text (section 4.3). -/
def attrValueNode (v : String) : Pair :=
  match rustSplit ' ' v with
  | [d] =>
    if dateShape d then Pair.mk Rule.datetime v [Pair.mk Rule.date d []]
    else
      match rustSplit '+' v with
      | [p0, p1] =>
        (match rustSplit ':' p0 with
         | [a, b] =>
           if digitStr a && digitStr b && digitStr p1 then
             Pair.mk Rule.timelimit v
               [Pair.mk Rule.timelimit_hours a [], Pair.mk Rule.timelimit_minutes b [],
                Pair.mk Rule.timelimit_byoyomi p1 []]
           else Pair.mk Rule.attr_text v []
         | _ => Pair.mk Rule.attr_text v [])
      | _ => Pair.mk Rule.attr_text v []
  | [d, t] =>
    if dateShape d && timeShape t then
      Pair.mk Rule.datetime v [Pair.mk Rule.date d [], Pair.mk Rule.time t []]
    else Pair.mk Rule.attr_text v []
  | _ => Pair.mk Rule.attr_text v []

/-- Modelled from the spec: a `$KEY:value` attribute line. -/
def mkGameAttr (l : String) : Except String Pair :=
  match l.data with
  | c :: cs =>
    if c = '$' then
      let key := cs.takeWhile fun x => x ≠ ':'
      if key.length = cs.length then Except.error "attribute line without a colon"
      else
        let value : String := ⟨cs.drop (key.length + 1)⟩
        Except.ok (Pair.mk Rule.game_attr l
          [Pair.mk Rule.attr_key ⟨key⟩ [], Pair.mk Rule.attr_value value [attrValueNode value]])
    else Except.error "not an attribute line"
  | [] => Except.error "not an attribute line"

/-- Modelled from the spec: the header loop of the grammar — player-name
and attribute lines before the position section (spec section 4.2). -/
def parseHeaderLines : List String → Except String (List Pair × List String)
  | [] => Except.ok ([], [])
  | l :: rest =>
    match l.data with
    | a :: b :: name =>
      if a = 'N' ∧ b = '+' then
        (parseHeaderLines rest).map fun hr =>
          (Pair.mk Rule.black_player l [Pair.mk Rule.player_name ⟨name⟩ []] :: hr.1, hr.2)
      else if a = 'N' ∧ b = '-' then
        (parseHeaderLines rest).map fun hr =>
          (Pair.mk Rule.white_player l [Pair.mk Rule.player_name ⟨name⟩ []] :: hr.1, hr.2)
      else if a = '$' then do
        let attr ← mkGameAttr l
        let hr ← parseHeaderLines rest
        Except.ok (attr :: hr.1, hr.2)
      else Except.ok ([], l :: rest)
    | _ => Except.ok ([], l :: rest)

/-- Modelled from the spec: the placement-line loop of the grammar —
consecutive `P+`/`P-` lines (spec section 4.4). -/
def parsePlacementLines : List String → Except String (List Pair × List String)
  | [] => Except.ok ([], [])
  | l :: rest =>
    match l.data with
    | a :: s :: cs =>
      if a = 'P' ∧ (s = '+' ∨ s = '-') then
        match placementChunks cs with
        | some ps => do
          let pr ← parsePlacementLines rest
          Except.ok (Pair.mk Rule.piece_placement l (mkColorPair s :: ps) :: pr.1, pr.2)
        | none => Except.error "malformed piece placement line"
      else Except.ok ([], l :: rest)
    | _ => Except.ok ([], l :: rest)

/-- Modelled from the spec: the grid-row loop of the grammar —
consecutive `P<digit>` lines with their row numbers and parsed cells. -/
def parseGridRows : List String → Except String (List (Nat × List Pair) × List String)
  | [] => Except.ok ([], [])
  | l :: rest =>
    match l.data with
    | a :: d :: cs =>
      if a = 'P' ∧ isDigitChar d then
        match cellsOfChunks cs with
        | some cells => do
          let gr ← parseGridRows rest
          Except.ok (((charToDigit d).getD 0, cells) :: gr.1, gr.2)
        | none => Except.error "malformed grid row"
      else Except.ok ([], l :: rest)
    | _ => Except.ok ([], l :: rest)

/-- Modelled from the spec: row rule labels of the standard 9x9 grid. -/
def gridRowRuleOf (i : Nat) : Rule :=
  match i with
  | 0 => Rule.grid_row1
  | 1 => Rule.grid_row2
  | 2 => Rule.grid_row3
  | 3 => Rule.grid_row4
  | 4 => Rule.grid_row5
  | 5 => Rule.grid_row6
  | 6 => Rule.grid_row7
  | 7 => Rule.grid_row8
  | _ => Rule.grid_row9

/-- Modelled from the spec: row rule labels of the 5x5 grid. -/
def miniRowRuleOf (i : Nat) : Rule :=
  match i with
  | 0 => Rule.mini_row1
  | 1 => Rule.mini_row2
  | 2 => Rule.mini_row3
  | 3 => Rule.mini_row4
  | _ => Rule.mini_row5

/-- Modelled from the spec: row rule labels of the 3x5 grid. -/
def wildcatRowRuleOf (i : Nat) : Rule :=
  match i with
  | 0 => Rule.wildcat_row1
  | 1 => Rule.wildcat_row2
  | 2 => Rule.wildcat_row3
  | 3 => Rule.wildcat_row4
  | _ => Rule.wildcat_row5

/-- Modelled from the spec: wrap collected rows as row pairs labeled by
`ruleOf`. -/
def buildRows (ruleOf : Nat → Rule) (rows : List (Nat × List Pair)) : List Pair :=
  rows.enum.map fun ir => Pair.mk (ruleOf ir.1) "" ir.2.2

/-- Modelled from the spec: which grid node a block of collected rows
forms — 9 rows of 9 cells are the standard grid, and only a dialect with
reduced-board support accepts 5 rows of 5 cells (5x5) or of 3 cells
(3x5); the row numbers must be 1..n in order (section 4.4). -/
def gridOfRows (cfg : GrammarConfig) (rows : List (Nat × List Pair)) : Except String Pair :=
  if rows.map (fun r => r.1) = (List.range rows.length).map (fun i => i + 1) then
    if rows.length = 9 ∧ rows.all (fun r => r.2.length = 9) then
      Except.ok (Pair.mk Rule.grid "" (buildRows gridRowRuleOf rows))
    else if cfg.reducedBoards ∧ rows.length = 5 ∧ rows.all (fun r => r.2.length = 5) then
      Except.ok (Pair.mk Rule.minishogi_grid "" (buildRows miniRowRuleOf rows))
    else if cfg.reducedBoards ∧ rows.length = 5 ∧ rows.all (fun r => r.2.length = 3) then
      Except.ok (Pair.mk Rule.wildcat_grid "" (buildRows wildcatRowRuleOf rows))
    else Except.error "unsupported grid shape"
  else Except.error "grid rows out of order"

/-- Modelled from the spec: the starting-position section — a `PI`
handicap line, a native grid block, or placement lines, the first two
optionally followed by placement lines (section 4.4). -/
def parsePositionSection (cfg : GrammarConfig) (lines : List String) :
    Except String (Option Pair × List String) :=
  match lines with
  | [] => Except.ok (none, [])
  | l :: rest =>
    match l.data with
    | a :: c :: cs =>
      if a ≠ 'P' then Except.ok (none, lines)
      else if c = 'I' then
        match handicapChunks cs with
        | some hs => do
          let pr ← parsePlacementLines rest
          let placed : List Pair :=
            if pr.1.isEmpty then [] else [Pair.mk Rule.piece_placement_lines "" pr.1]
          Except.ok (some (Pair.mk Rule.position l (Pair.mk Rule.handicap l hs :: placed)), pr.2)
        | none => Except.error "malformed handicap line"
      else if c = '+' ∨ c = '-' then do
        let pr ← parsePlacementLines lines
        let placed : List Pair :=
          if pr.1.isEmpty then [] else [Pair.mk Rule.piece_placement_lines "" pr.1]
        Except.ok (some (Pair.mk Rule.position l placed), pr.2)
      else if isDigitChar c then do
        let gr ← parseGridRows lines
        let gridPair ← gridOfRows cfg gr.1
        let pr ← parsePlacementLines gr.2
        let placed : List Pair :=
          if pr.1.isEmpty then [] else [Pair.mk Rule.piece_placement_lines "" pr.1]
        Except.ok (some (Pair.mk Rule.position l (gridPair :: placed)), pr.2)
      else Except.ok (none, lines)
    | _ => Except.ok (none, lines)

/-- Modelled from the spec: the side-to-move line of the grammar — a
lone `+` or `-`. -/
def parseSideLine (lines : List String) : Option Pair × List String :=
  match lines with
  | [] => (none, [])
  | l :: rest =>
    if l = "+" then (some (Pair.mk Rule.side_to_move l [mkColorPair '+']), rest)
    else if l = "-" then (some (Pair.mk Rule.side_to_move l [mkColorPair '-']), rest)
    else (none, lines)

/-- Modelled from the spec: whether a string is a valid elapsed-time
token tail — digits, or (only with fractional support) digits, a dot and
a 1-3 digit fraction. -/
def timeTokOK (cfg : GrammarConfig) (s : String) : Bool :=
  digitStr s ||
    (cfg.fracTime &&
      match rustSplit '.' s with
      | [a, b] => digitStr a && digitStr b && decide (1 ≤ b.length ∧ b.length ≤ 3)
      | _ => false)

/-- Modelled from the spec: the move-record section — action lines
(moves or `%` events) and elapsed-time lines, to end of input
(section 4.5). -/
def parseMoveLines (cfg : GrammarConfig) : List String → Except String (List Pair)
  | [] => Except.ok []
  | l :: rest =>
    match l.data with
    | a :: bs =>
      if a = '%' then
        (parseMoveLines cfg rest).map fun ms =>
          Pair.mk Rule.move_record l [Pair.mk Rule.special_move l []] :: ms
      else if a = 'T' then
        if timeTokOK cfg ⟨bs⟩ then
          (parseMoveLines cfg rest).map fun ms =>
            Pair.mk Rule.time_consumed l [Pair.mk Rule.seconds_consumed ⟨bs⟩ []] :: ms
        else Except.error "malformed elapsed-time line"
      else if a = '+' ∨ a = '-' then
        match bs with
        | [b, c, d, e, f, g] =>
          if isDigitChar b ∧ isDigitChar c ∧ isDigitChar d ∧ isDigitChar e ∧ validPieceCode f g then
            (parseMoveLines cfg rest).map fun ms =>
              Pair.mk Rule.move_record l
                [Pair.mk Rule.normal_move l
                  [mkColorPair a, Pair.mk Rule.square ⟨[b, c]⟩ [],
                   Pair.mk Rule.square ⟨[d, e]⟩ [], Pair.mk Rule.piece_type ⟨[f, g]⟩ []]] :: ms
          else Except.error "malformed move line"
        | _ => Except.error "malformed move line"
      else Except.error "unrecognized line in move section"
    | [] => Except.error "unrecognized blank line"

/-- Modelled from the spec: the substantive lines of the input — comment
lines (leading apostrophe) and empty lines are not part of any grammar
section. -/
def contentLines (input : String) : List String :=
  (rustLines input).filter fun l => !(l = "" || strStartsWith l "'")

/-- Modelled from the spec: the grammar parse of one dialect (section
4.2) — a version line, then player/attribute header lines, an optional
position section, an optional side-to-move line and the move section;
any line fitting no section is a positional grammar violation, and no
partial tree is produced on failure. -/
def grammarParse (cfg : GrammarConfig) (input : String) : Except String Pair :=
  match contentLines input with
  | [] => Except.error "empty input"
  | v :: rest =>
    if v ≠ cfg.versionTok then Except.error "expected version line"
    else do
      let hdr ← parseHeaderLines rest
      let pos ← parsePositionSection cfg hdr.2
      let side := parseSideLine pos.2
      let mvs ← parseMoveLines cfg side.2
      Except.ok (Pair.mk Rule.game_record input
        (hdr.1 ++ pos.1.toList ++ side.1.toList ++ [Pair.mk Rule.move_records "" mvs]))

/-- Modelled from the spec: grammar configuration of the V2.2 dialect
(the one dialect with reduced-board grids; integer-second timing). -/
def v2_2Config : GrammarConfig := ⟨"V2.2", true, false⟩

/-- Modelled from the spec: grammar configuration of the V3.0 dialect
(standard board only; fractional millisecond timing). -/
def v3Config : GrammarConfig := ⟨"V3.0", false, true⟩

/-- Modelled from the spec: grammar configuration of the V2 dialect (the
oldest; standard board only, integer seconds). -/
def v2Config : GrammarConfig := ⟨"V2", false, false⟩

/-- Modelled from the spec: grammar configuration of the V2.1 dialect
(standard board only, integer seconds). -/
def v2_1Config : GrammarConfig := ⟨"V2.1", false, false⟩

namespace v2_2

/-- Embeds `parse` from `src/parser/csa/v2_2/mod.rs`: grammar parse
(spec-modelled), then the total semantic transformation. -/
def parse (input : String) : Except ParseError GameRecord :=
  match grammarParse v2_2Config input with
  | Except.error e => Except.error ⟨e⟩
  | Except.ok root => Except.ok (transform root)

end v2_2

namespace v3

/-- Embeds `parse` from `src/parser/csa/v3/mod.rs`. -/
def parse (input : String) : Except ParseError GameRecord :=
  match grammarParse v3Config input with
  | Except.error e => Except.error ⟨e⟩
  | Except.ok root => Except.ok (transform root)

end v3

namespace v2

/-- Parse error of the V2 parser. -/
structure ParseError where
  msg : String
deriving DecidableEq

/-- Modelled from the spec: the `v2` module is not among the source
files; per section 4.3 the two oldest dialects classify the same event
vocabulary as V2.2, including the retracted-move token `MATTA`. -/
def parse_special_move (s : String) : Action :=
  v2_2.parse_special_move s

/-- Modelled from the spec: the V2 dialect parser — V2.2's semantic
transformer over the V2 grammar configuration (standard board only,
integer seconds, same event vocabulary). -/
def parse (input : String) : Except ParseError GameRecord :=
  match grammarParse v2Config input with
  | Except.error e => Except.error ⟨e⟩
  | Except.ok root => Except.ok (v2_2.transform root)

end v2

namespace v2_1

/-- Parse error of the V2.1 parser. -/
structure ParseError where
  msg : String
deriving DecidableEq

/-- Modelled from the spec: the `v2_1` module is not among the source
files; the V2.1 event vocabulary equals V2.2's, including the
retracted-move token `MATTA`. -/
def parse_special_move (s : String) : Action :=
  v2_2.parse_special_move s

/-- Modelled from the spec: the V2.1 dialect parser — V2.2's semantic
transformer over the V2.1 grammar configuration. -/
def parse (input : String) : Except ParseError GameRecord :=
  match grammarParse v2_1Config input with
  | Except.error e => Except.error ⟨e⟩
  | Except.ok root => Except.ok (v2_2.transform root)

end v2_1

namespace csa

/-- Parse error type of `src/parser/csa/mod.rs` (`ParseError(pub
String)`). -/
structure ParseError where
  msg : String
deriving DecidableEq

/-- Embeds `parse` from `src/parser/csa/mod.rs`: auto-detect the version,
then dispatch to that dialect's parser, normalizing its error. -/
def parse (input : String) : Except ParseError GameRecord :=
  match detect_version input with
  | none => Except.error ⟨"No version found or unsupported version"⟩
  | some Version.V2 => (v2.parse input).mapError fun e => ⟨e.msg⟩
  | some Version.V2_1 => (v2_1.parse input).mapError fun e => ⟨e.msg⟩
  | some Version.V2_2 => (v2_2.parse input).mapError fun e => ⟨e.msg⟩
  | some Version.V3 => (v3.parse input).mapError fun e => ⟨e.msg⟩

end csa

/-- Error enum of `src/parser/mod.rs` (`CsaError`). -/
inductive CsaError where
  | ParseError (msg : String)
deriving DecidableEq

/-- Embeds `parse_csa` from `src/parser/mod.rs`: the facade entry point
with automatic version detection. -/
def parse_csa (s : String) : Except CsaError GameRecord :=
  (csa.parse s).mapError fun e => CsaError.ParseError e.msg

/-- C1: for every input string, dialect detection behaves exactly as the
specification words it — the first non-blank, non-comment line selects the
dialect when it is exactly one of the four version tokens; an
encoding-declaration comment encountered first selects the newest dialect;
and any other non-blank, non-comment line encountered first, or end of
input, yields no dialect. Stated as extensional equality of the code's
detector with the detector written from the specification's words. -/
theorem C1_detect_version_follows_spec (input : String) :
    detect_version input = detect_version_spec input := by
  unfold detect_version detect_version_spec
  exact detectVersionLines_eq_spec (rustLines input)

/-- C4 as stated is false at the token `%MATTA` in the V2.2 dialect: the
V2.2 classifier maps it to the retracted-move action `Matta`, not to the
unrecognized action `Error`. -/
theorem C4_counterexample_v2_2_matta :
    v2_2.parse_special_move "%MATTA" = Action.Matta ∧ Action.Matta ≠ Action.Error := by
  decide

/-- C4 amended: the retracted-move token `%MATTA` classifies to the
retracted-move action in the V2, V2.1 and V2.2 dialects, and only the
V3.0 dialect places it outside its recognized event subset, routing it to
the unrecognized action. -/
theorem C4_matta_recognized_through_v2_2 :
    v2.parse_special_move "%MATTA" = Action.Matta ∧
    v2_1.parse_special_move "%MATTA" = Action.Matta ∧
    v2_2.parse_special_move "%MATTA" = Action.Matta ∧
    v3.parse_special_move "%MATTA" = Action.Error := by
  decide

/-- C8: in every dialect the signed illegal-action tokens classify to the
illegal-action event with the matching actor color, the unsigned
`%ILLEGAL_MOVE` token classifies to the distinct illegal-move event, and
neither is aliased to the other. -/
theorem C8_illegal_action_vs_illegal_move :
    (v2_2.parse_special_move "%+ILLEGAL_ACTION" = Action.IllegalAction Color.Black ∧
     v2_2.parse_special_move "%-ILLEGAL_ACTION" = Action.IllegalAction Color.White ∧
     v2_2.parse_special_move "%ILLEGAL_MOVE" = Action.IllegalMove) ∧
    (v3.parse_special_move "%+ILLEGAL_ACTION" = Action.IllegalAction Color.Black ∧
     v3.parse_special_move "%-ILLEGAL_ACTION" = Action.IllegalAction Color.White ∧
     v3.parse_special_move "%ILLEGAL_MOVE" = Action.IllegalMove) ∧
    (v2.parse_special_move "%+ILLEGAL_ACTION" = Action.IllegalAction Color.Black ∧
     v2.parse_special_move "%-ILLEGAL_ACTION" = Action.IllegalAction Color.White ∧
     v2.parse_special_move "%ILLEGAL_MOVE" = Action.IllegalMove) ∧
    (v2_1.parse_special_move "%+ILLEGAL_ACTION" = Action.IllegalAction Color.Black ∧
     v2_1.parse_special_move "%-ILLEGAL_ACTION" = Action.IllegalAction Color.White ∧
     v2_1.parse_special_move "%ILLEGAL_MOVE" = Action.IllegalMove) := by
  decide

/-- C5: the regression input with a terminal `%TSUMI` at end of input and
no trailing line terminator parses to exactly two move records, the second
being the checkmate-declared event with no elapsed time; the same input
with a trailing newline yields the identical move-record sequence. -/
theorem C5_terminal_event_trailing_newline_insensitive :
    (parse_csa "V2.2\nPI\n+\n+7776FU\n%TSUMI").map (fun r => r.moves) =
      Except.ok
        [{ action := Action.Move Color.Black (Square.new 7 7) (Square.new 7 6) PieceType.Pawn,
           time := none },
         { action := Action.Tsumi, time := none }] ∧
    (parse_csa "V2.2\nPI\n+\n+7776FU\n%TSUMI\n").map (fun r => r.moves) =
      Except.ok
        [{ action := Action.Move Color.Black (Square.new 7 7) (Square.new 7 6) PieceType.Pawn,
           time := none },
         { action := Action.Tsumi, time := none }] := by
  decide

/-- C3: evaluation at the failing input. In the V3.0 transformer a
`TIME_LIMIT` value delivered as free text is dropped (the record keeps no
time limit) and a free-text `START_TIME` is likewise dropped, while the
same `TIME_LIMIT` value delivered as a structured node yields main time
1500 seconds (25 minutes) and byoyomi 60 seconds; the V2.2 transformer
parses both paths to that same value and parses a free-text `START_TIME`
as "date[ time]" split at a space, as the claim requires of every
dialect. -/
theorem C3_v3_drops_free_text_temporal_values :
    (v3.parse_game_attr
      (Pair.mk Rule.game_attr "$TIME_LIMIT:00:25+60"
        [Pair.mk Rule.attr_key "TIME_LIMIT" [],
         Pair.mk Rule.attr_value "00:25+60" [Pair.mk Rule.attr_text "00:25+60" []]])
      GameRecord.default).time_limit = none ∧
    v3.parse_timelimit
      (Pair.mk Rule.timelimit "00:25+60"
        [Pair.mk Rule.timelimit_hours "00" [], Pair.mk Rule.timelimit_minutes "25" [],
         Pair.mk Rule.timelimit_byoyomi "60" []]) =
      { main_time := Duration.fromSecs 1500, byoyomi := Duration.fromSecs 60 } ∧
    (v2_2.parse_game_attr
      (Pair.mk Rule.game_attr "$TIME_LIMIT:00:25+60"
        [Pair.mk Rule.attr_key "TIME_LIMIT" [],
         Pair.mk Rule.attr_value "00:25+60" [Pair.mk Rule.attr_text "00:25+60" []]])
      GameRecord.default).time_limit =
      some { main_time := Duration.fromSecs 1500, byoyomi := Duration.fromSecs 60 } ∧
    v2_2.parse_timelimit
      (Pair.mk Rule.timelimit "00:25+60"
        [Pair.mk Rule.timelimit_hours "00" [], Pair.mk Rule.timelimit_minutes "25" [],
         Pair.mk Rule.timelimit_byoyomi "60" []]) =
      { main_time := Duration.fromSecs 1500, byoyomi := Duration.fromSecs 60 } ∧
    v2_2.try_parse_timelimit_str "00:25+60" =
      some { main_time := Duration.fromSecs 1500, byoyomi := Duration.fromSecs 60 } ∧
    v2_2.try_parse_datetime_str "2024/04/01 10:30:00" =
      some { date := { year := 2024, month := 4, day := 1 },
             time := some { hour := 10, minute := 30, second := 0 } } ∧
    (v3.parse_game_attr
      (Pair.mk Rule.game_attr "$START_TIME:2024/04/01 10:30:00"
        [Pair.mk Rule.attr_key "START_TIME" [],
         Pair.mk Rule.attr_value "2024/04/01 10:30:00"
           [Pair.mk Rule.attr_text "2024/04/01 10:30:00" []]])
      GameRecord.default).start_time = none := by
  decide

theorem digitsVal_foldl (acc : Nat) (xs : List Char) :
    xs.foldl (fun a c => a * 10 + (c.toNat - 48)) acc =
      acc * 10 ^ xs.length + digitsVal xs := by
  induction xs generalizing acc with
  | nil => simp [digitsVal]
  | cons x xs ih =>
    have h1 : List.foldl (fun a c => a * 10 + (c.toNat - 48)) acc (x :: xs) =
        List.foldl (fun a c => a * 10 + (c.toNat - 48)) (acc * 10 + (x.toNat - 48)) xs := rfl
    have h2 : digitsVal (x :: xs) =
        List.foldl (fun a c => a * 10 + (c.toNat - 48)) (0 * 10 + (x.toNat - 48)) xs := rfl
    rw [h1, ih, h2, ih, List.length_cons]
    ring

theorem digitsVal_lt_pow (xs : List Char) (h : xs.all isDigitChar = true) :
    digitsVal xs < 10 ^ xs.length := by
  induction xs with
  | nil => simp [digitsVal]
  | cons x xs ih =>
    simp only [List.all_cons, Bool.and_eq_true] at h
    have hx : x.toNat - 48 ≤ 9 := by
      have := h.1
      simp only [isDigitChar, Bool.and_eq_true, decide_eq_true_eq] at this
      omega
    have hxs := ih h.2
    rw [digitsVal, List.foldl_cons]
    rw [show (0 : Nat) * 10 + (x.toNat - 48) = x.toNat - 48 by ring]
    rw [digitsVal_foldl]
    calc (x.toNat - 48) * 10 ^ xs.length + digitsVal xs
        < (x.toNat - 48) * 10 ^ xs.length + 10 ^ xs.length := by omega
      _ = ((x.toNat - 48) + 1) * 10 ^ xs.length := by ring
      _ ≤ 10 * 10 ^ xs.length := by
          have : (x.toNat - 48) + 1 ≤ 10 := by omega
          exact Nat.mul_le_mul_right _ this
      _ = 10 ^ (xs.length + 1) := by ring

theorem parseUIntChars_of_digits (bound : Nat) (a : List Char) (ha : a ≠ [])
    (had : a.all isDigitChar = true) (hb : digitsVal a < bound) :
    parseUIntChars bound a = some (digitsVal a) := by
  cases a with
  | nil => exact absurd rfl ha
  | cons x xs =>
    have hx : isDigitChar x = true := by
      simp only [List.all_cons, Bool.and_eq_true] at had
      exact had.1
    have hplus : x ≠ '+' := by
      intro h
      rw [h] at hx
      exact absurd hx (by decide)
    simp only [parseUIntChars, if_neg hplus]
    rw [if_pos ⟨by simp, had, hb⟩]

theorem takeWhile_append_of_false (p : Char → Bool) (a : List Char) (c : Char) (b : List Char)
    (ha : ∀ x ∈ a, p x = true) (hc : p c = false) :
    (a ++ c :: b).takeWhile p = a := by
  induction a with
  | nil => simp [List.takeWhile_cons, hc]
  | cons x xs ih =>
    have hx : p x = true := ha x (by simp)
    simp only [List.cons_append, List.takeWhile_cons, hx, if_true]
    rw [ih fun y hy => ha y (by simp [hy])]

/-- C6: in the V3.0 dialect an elapsed-time token with a fractional-second
suffix of 1, 2 or 3 digits is converted to whole milliseconds — the
fraction is scaled as tenths, hundredths or thousandths — added to the
integer-second part; in particular `T15.123` yields 15123 ms, `T15.1`
yields 15100 ms and `T15.12` yields 15120 ms. -/
theorem C6_fractional_seconds_to_milliseconds :
    (∀ (a b : List Char), a ≠ [] → a.all isDigitChar = true → digitsVal a < 2 ^ 64 →
      b ≠ [] → b.all isDigitChar = true → b.length ≤ 3 →
      v3.parse_time_consumed_str ⟨a ++ '.' :: b⟩ =
        Duration.fromMillis (digitsVal a * 1000 + digitsVal b * 10 ^ (3 - b.length))) ∧
    v3.parse_time_consumed
        (Pair.mk Rule.time_consumed "T15.123" [Pair.mk Rule.seconds_consumed "15.123" []]) =
      Duration.fromMillis 15123 ∧
    v3.parse_time_consumed
        (Pair.mk Rule.time_consumed "T15.1" [Pair.mk Rule.seconds_consumed "15.1" []]) =
      Duration.fromMillis 15100 ∧
    v3.parse_time_consumed
        (Pair.mk Rule.time_consumed "T15.12" [Pair.mk Rule.seconds_consumed "15.12" []]) =
      Duration.fromMillis 15120 := by
  refine ⟨?_, by decide, by decide, by decide⟩
  intro a b ha had habound hb hbd hblen
  have hdotdig : ∀ x ∈ a, (fun c => decide (c ≠ '.')) x = true := by
    intro x hx
    have : isDigitChar x = true := by
      rw [List.all_eq_true] at had
      exact had x hx
    simp only [decide_eq_true_eq]
    intro hdot
    rw [hdot] at this
    exact absurd this (by decide)
  have htake : (a ++ '.' :: b).takeWhile (fun c => decide (c ≠ '.')) = a :=
    takeWhile_append_of_false _ a '.' b hdotdig (by decide)
  have hdrop : (a ++ '.' :: b).drop (a.length + 1) = b := by
    have hsplit : a ++ '.' :: b = (a ++ ['.']) ++ b := by simp
    rw [hsplit, show a.length + 1 = (a ++ ['.']).length by simp]
    exact List.drop_left _ _
  have hlen : ¬(a.length = (a ++ '.' :: b).length) := by
    simp only [List.length_append, List.length_cons]
    omega
  have hblt : digitsVal b < 2 ^ 64 := by
    have h1 := digitsVal_lt_pow b hbd
    have h2 : (10 : Nat) ^ b.length ≤ 10 ^ 3 :=
      Nat.pow_le_pow_right (by norm_num) hblen
    have : (10 : Nat) ^ 3 < 2 ^ 64 := by norm_num
    omega
  have hbpos : 0 < b.length := List.length_pos.mpr hb
  simp only [v3.parse_time_consumed_str]
  rw [htake, hdrop]
  rw [if_neg hlen]
  rw [parseUIntChars_of_digits _ a ha had habound]
  rw [parseUIntChars_of_digits _ b hb hbd hblt]
  have hcase : b.length = 1 ∨ b.length = 2 ∨ b.length = 3 := by omega
  rcases hcase with h1 | h2 | h3
  · rw [h1]
    norm_num
  · rw [h2]
    rw [if_neg (by omega), if_pos rfl]
    norm_num
  · rw [h3]
    rw [if_neg (by omega), if_neg (by omega), if_pos rfl]
    norm_num

theorem C6_fractional_witness :
    v3.parse_time_consumed_str ⟨['1', '5'] ++ '.' :: ['1', '2', '3']⟩ =
      Duration.fromMillis
        (digitsVal ['1', '5'] * 1000 +
          digitsVal ['1', '2', '3'] * 10 ^ (3 - (['1', '2', '3'] : List Char).length)) :=
  C6_fractional_seconds_to_milliseconds.1 ['1', '5'] ['1', '2', '3']
    (by decide) (by decide) (by decide) (by decide) (by decide) (by decide)

/-- C10: the lexical value converters default silently — any color sign
other than `+`/`-` converts to Black, any piece abbreviation outside the
fifteen recognized codes converts to Pawn, and a non-digit character in
either position of a (two-or-more-character) square token converts that
coordinate to 0 — in both transcribed dialects. -/
theorem C10_lexical_converters_default :
    (∀ s : String, s ≠ "+" → s ≠ "-" →
      v2_2.parse_color s = Color.Black ∧ v3.parse_color s = Color.Black) ∧
    (∀ s : String, s ∉ pieceCodes →
      v2_2.parse_piece_type s = PieceType.Pawn ∧ v3.parse_piece_type s = PieceType.Pawn) ∧
    (∀ (c0 c1 : Char) (rest : List Char), isDigitChar c0 = false →
      v2_2.parse_square_checked ⟨c0 :: c1 :: rest⟩ =
        some (Square.new 0 ((charToDigit c1).getD 0)) ∧
      v3.parse_square_checked ⟨c0 :: c1 :: rest⟩ =
        some (Square.new 0 ((charToDigit c1).getD 0))) ∧
    (∀ (c0 c1 : Char) (rest : List Char), isDigitChar c1 = false →
      v2_2.parse_square_checked ⟨c0 :: c1 :: rest⟩ =
        some (Square.new ((charToDigit c0).getD 0) 0) ∧
      v3.parse_square_checked ⟨c0 :: c1 :: rest⟩ =
        some (Square.new ((charToDigit c0).getD 0) 0)) := by
  refine ⟨?_, ?_, ?_, ?_⟩
  · intro s h1 h2
    exact ⟨by simp [v2_2.parse_color, h1, h2], by simp [v3.parse_color, h1, h2]⟩
  · intro s h
    simp only [pieceCodes, List.mem_cons, List.not_mem_nil, or_false, not_or] at h
    obtain ⟨h1, h2, h3, h4, h5, h6, h7, h8, h9, h10, h11, h12, h13, h14, h15⟩ := h
    exact ⟨by simp [v2_2.parse_piece_type, h1, h2, h3, h4, h5, h6, h7, h8, h9, h10, h11, h12,
        h13, h14, h15],
      by simp [v3.parse_piece_type, h1, h2, h3, h4, h5, h6, h7, h8, h9, h10, h11, h12, h13,
        h14, h15]⟩
  · intro c0 c1 rest h
    exact ⟨by simp [v2_2.parse_square_checked, charToDigit, h],
      by simp [v3.parse_square_checked, charToDigit, h]⟩
  · intro c0 c1 rest h
    exact ⟨by simp [v2_2.parse_square_checked, charToDigit, h],
      by simp [v3.parse_square_checked, charToDigit, h]⟩

theorem C10_lexical_witness :
    (v2_2.parse_color "*" = Color.Black ∧ v3.parse_color "*" = Color.Black) ∧
    (v2_2.parse_piece_type "ZZ" = PieceType.Pawn ∧ v3.parse_piece_type "ZZ" = PieceType.Pawn) ∧
    (v2_2.parse_square_checked ⟨'x' :: '5' :: []⟩ =
        some (Square.new 0 ((charToDigit '5').getD 0)) ∧
      v3.parse_square_checked ⟨'x' :: '5' :: []⟩ =
        some (Square.new 0 ((charToDigit '5').getD 0))) ∧
    (v2_2.parse_square_checked ⟨'7' :: 'y' :: []⟩ =
        some (Square.new ((charToDigit '7').getD 0) 0) ∧
      v3.parse_square_checked ⟨'7' :: 'y' :: []⟩ =
        some (Square.new ((charToDigit '7').getD 0) 0)) :=
  ⟨C10_lexical_converters_default.1 "*" (by decide) (by decide),
   C10_lexical_converters_default.2.1 "ZZ" (by decide),
   C10_lexical_converters_default.2.2.1 'x' '5' [] (by decide),
   C10_lexical_converters_default.2.2.2 '7' 'y' [] (by decide)⟩

theorem fillCells_stopped (w r : Nat) (cells : List Pair) :
    ∀ (col : Nat) (g : Grid), w ≤ col → v2_2.fillCells w r cells col g = g := by
  induction cells with
  | nil => intro col g _; rfl
  | cons c cs ih =>
    intro col g hcol
    rw [v2_2.fillCells, if_neg fun h => absurd h.2 (Nat.not_lt.mpr hcol)]
    exact ih col g hcol

theorem fillCells_take_width (w r : Nat) (cells : List Pair)
    (hcells : ∀ c ∈ cells, c.asRule = Rule.grid_cell) :
    ∀ (col : Nat) (g : Grid),
      v2_2.fillCells w r cells col g = v2_2.fillCells w r (cells.take (w - col)) col g := by
  induction cells with
  | nil => intro col g; simp
  | cons c cs ih =>
    intro col g
    have hc : c.asRule = Rule.grid_cell := hcells c (by simp)
    by_cases hlt : col < w
    · have hsub : w - col = (w - (col + 1)) + 1 := by omega
      rw [hsub]
      rw [List.take_succ_cons]
      rw [v2_2.fillCells, if_pos ⟨hc, hlt⟩]
      rw [v2_2.fillCells, if_pos ⟨hc, hlt⟩]
      exact ih (fun x hx => hcells x (by simp [hx])) (col + 1) _
    · have hcol : w ≤ col := Nat.not_lt.mp hlt
      have hsub : w - col = 0 := by omega
      rw [hsub, List.take_zero]
      rw [fillCells_stopped w r (c :: cs) col g hcol]
      rfl

theorem v3_fillCells_stopped (r : Nat) (cells : List Pair) :
    ∀ (col : Nat) (g : Grid), 9 ≤ col → v3.fillCells r cells col g = g := by
  induction cells with
  | nil => intro col g _; rfl
  | cons c cs ih =>
    intro col g hcol
    rw [v3.fillCells, if_neg fun h => absurd h.2 (Nat.not_lt.mpr hcol)]
    exact ih col g hcol

theorem v3_fillCells_take_width (r : Nat) (cells : List Pair)
    (hcells : ∀ c ∈ cells, c.asRule = Rule.grid_cell) :
    ∀ (col : Nat) (g : Grid),
      v3.fillCells r cells col g = v3.fillCells r (cells.take (9 - col)) col g := by
  induction cells with
  | nil => intro col g; simp
  | cons c cs ih =>
    intro col g
    have hc : c.asRule = Rule.grid_cell := hcells c (by simp)
    by_cases hlt : col < 9
    · have hsub : 9 - col = (9 - (col + 1)) + 1 := by omega
      rw [hsub]
      rw [List.take_succ_cons]
      rw [v3.fillCells, if_pos ⟨hc, hlt⟩]
      rw [v3.fillCells, if_pos ⟨hc, hlt⟩]
      exact ih (fun x hx => hcells x (by simp [hx])) (col + 1) _
    · have hcol : 9 ≤ col := Nat.not_lt.mp hlt
      have hsub : 9 - col = 0 := by omega
      rw [hsub, List.take_zero]
      rw [v3_fillCells_stopped r (c :: cs) col g hcol]
      rfl

/-- C9: for every input accepted by the grammar the semantic
transformation yields a record and cannot fail — the dialect parser
returns exactly the transformed tree; the square-token indexing is safe
whenever the token has at least two characters (so the panic branch is
unreachable under the grammar's two-digit guarantee); grid-row cell writes
are bounds-guarded, excess cells beyond the row width being ignored; and
an unparseable numeric sub-token falls back to the default 0. -/
theorem C9_transformation_total :
    (∀ s : String, 2 ≤ s.data.length →
      (v2_2.parse_square_checked s).isSome = true ∧ (v3.parse_square_checked s).isSome = true) ∧
    (∀ (input : String) (t : Pair), grammarParse v2_2Config input = Except.ok t →
      v2_2.parse input = Except.ok (v2_2.transform t)) ∧
    (∀ (input : String) (t : Pair), grammarParse v3Config input = Except.ok t →
      v3.parse input = Except.ok (v3.transform t)) ∧
    (∀ (w r : Nat) (g : Grid) (cells : List Pair),
      (∀ c ∈ cells, c.asRule = Rule.grid_cell) →
      v2_2.fillCells w r cells 0 g = v2_2.fillCells w r (cells.take w) 0 g) ∧
    (∀ (r : Nat) (g : Grid) (cells : List Pair),
      (∀ c ∈ cells, c.asRule = Rule.grid_cell) →
      v3.fillCells r cells 0 g = v3.fillCells r (cells.take 9) 0 g) ∧
    v2_2.parse_time_consumed
        (Pair.mk Rule.time_consumed "T99x" [Pair.mk Rule.seconds_consumed "99x" []]) =
      Duration.fromSecs 0 ∧
    v2_2.parse_timelimit
        (Pair.mk Rule.timelimit "xx:25+60"
          [Pair.mk Rule.timelimit_hours "xx" [], Pair.mk Rule.timelimit_minutes "25" [],
           Pair.mk Rule.timelimit_byoyomi "60" []]) =
      { main_time := Duration.fromSecs 1500, byoyomi := Duration.fromSecs 60 } := by
  refine ⟨?_, ?_, ?_, ?_, ?_, by decide, by decide⟩
  · intro s h
    obtain ⟨cs⟩ := s
    match cs, h with
    | c0 :: c1 :: rest, _ =>
      exact ⟨rfl, rfl⟩
  · intro input t h
    simp [v2_2.parse, h]
  · intro input t h
    simp [v3.parse, h]
  · intro w r g cells hcells
    have := fillCells_take_width w r cells hcells 0 g
    simpa using this
  · intro r g cells hcells
    have := v3_fillCells_take_width r cells hcells 0 g
    simpa using this

theorem C9_transformation_witness :
    ((v2_2.parse_square_checked "77").isSome = true ∧
      (v3.parse_square_checked "77").isSome = true) ∧
    v2_2.parse "V2.2\n%TORYO\n" =
      Except.ok (v2_2.transform
        (Pair.mk Rule.game_record "V2.2\n%TORYO\n"
          [Pair.mk Rule.move_records ""
            [Pair.mk Rule.move_record "%TORYO" [Pair.mk Rule.special_move "%TORYO" []]]])) ∧
    v2_2.fillCells 9 0 [] 0 (Grid.empty 9 9) =
      v2_2.fillCells 9 0 (List.take 9 []) 0 (Grid.empty 9 9) :=
  ⟨C9_transformation_total.1 "77" (by decide),
   C9_transformation_total.2.1 "V2.2\n%TORYO\n"
     (Pair.mk Rule.game_record "V2.2\n%TORYO\n"
       [Pair.mk Rule.move_records ""
         [Pair.mk Rule.move_record "%TORYO" [Pair.mk Rule.special_move "%TORYO" []]]])
     (by rfl),
   C9_transformation_total.2.2.2.1 9 0 (Grid.empty 9 9) [] (by simp)⟩

/-- Grammar configuration selected by each detected dialect. -/
def dialectConfig : Version → GrammarConfig
  | .V2 => v2Config
  | .V2_1 => v2_1Config
  | .V2_2 => v2_2Config
  | .V3 => v3Config

/-- Semantic transformer selected by each detected dialect (the two
oldest, spec-modelled dialects reuse the V2.2 transformer). -/
def dialectTransform : Version → Pair → GameRecord
  | .V2 => v2_2.transform
  | .V2_1 => v2_2.transform
  | .V2_2 => v2_2.transform
  | .V3 => v3.transform

theorem parse_csa_eq (input : String) :
    parse_csa input =
      match detect_version input with
      | none => Except.error (CsaError.ParseError "No version found or unsupported version")
      | some v =>
        match grammarParse (dialectConfig v) input with
        | Except.error msg => Except.error (CsaError.ParseError msg)
        | Except.ok t => Except.ok (dialectTransform v t) := by
  unfold parse_csa csa.parse
  cases hdet : detect_version input with
  | none => rfl
  | some v =>
    cases v <;>
      simp only [dialectConfig, dialectTransform, v2.parse, v2_1.parse, v2_2.parse, v3.parse] <;>
      cases hg : grammarParse v2Config input <;>
      cases hg1 : grammarParse v2_1Config input <;>
      cases hg2 : grammarParse v2_2Config input <;>
      cases hg3 : grammarParse v3Config input <;>
      simp [Except.mapError, hg, hg1, hg2, hg3]

/-- C2: the facade returns an error exactly when detection finds no
version line or the selected dialect's grammar rejects the input; the
grammar's diagnostic text is carried through; on detection failure the
fixed unknown-dialect message is produced; and a returned record implies
both detection and the grammar parse succeeded — so an error and a record
are mutually exclusive terminal outcomes. -/
theorem C2_facade_error_exactly_on_detect_or_grammar (input : String) :
    ((∃ e, parse_csa input = Except.error e) ↔
      (detect_version input = none ∨
        ∃ v msg, detect_version input = some v ∧
          grammarParse (dialectConfig v) input = Except.error msg)) ∧
    (∀ v msg, detect_version input = some v →
      grammarParse (dialectConfig v) input = Except.error msg →
      parse_csa input = Except.error (CsaError.ParseError msg)) ∧
    (detect_version input = none →
      parse_csa input =
        Except.error (CsaError.ParseError "No version found or unsupported version")) ∧
    (∀ r, parse_csa input = Except.ok r →
      ∃ v t, detect_version input = some v ∧
        grammarParse (dialectConfig v) input = Except.ok t ∧ r = dialectTransform v t) := by
  cases hdet : detect_version input with
  | none =>
    have hpe : parse_csa input =
        Except.error (CsaError.ParseError "No version found or unsupported version") := by
      rw [parse_csa_eq, hdet]
    refine ⟨⟨fun _ => Or.inl rfl, fun _ => ⟨_, hpe⟩⟩, ?_, fun _ => hpe, ?_⟩
    · intro v msg hv
      exact absurd hv (by simp)
    · intro r hr
      rw [hpe] at hr
      exact absurd hr (by simp)
  | some v =>
    cases hg : grammarParse (dialectConfig v) input with
    | error msg =>
      have hpe : parse_csa input = Except.error (CsaError.ParseError msg) := by
        rw [parse_csa_eq, hdet]
        show (match grammarParse (dialectConfig v) input with
          | Except.error m => Except.error (CsaError.ParseError m)
          | Except.ok t => Except.ok (dialectTransform v t)) = _
        rw [hg]
      refine ⟨⟨fun _ => Or.inr ⟨v, msg, rfl, hg⟩, fun _ => ⟨_, hpe⟩⟩, ?_, ?_, ?_⟩
      · intro v' msg' hv' hg'
        have h : v = v' := by injection hv'
        subst h
        rw [hg] at hg'
        have h2 : msg = msg' := by injection hg'
        subst h2
        exact hpe
      · intro h; exact absurd h (by simp)
      · intro r hr
        rw [hpe] at hr
        exact absurd hr (by simp)
    | ok t =>
      have hpe : parse_csa input = Except.ok (dialectTransform v t) := by
        rw [parse_csa_eq, hdet]
        show (match grammarParse (dialectConfig v) input with
          | Except.error m => Except.error (CsaError.ParseError m)
          | Except.ok t => Except.ok (dialectTransform v t)) = _
        rw [hg]
      refine ⟨⟨?_, ?_⟩, ?_, ?_, ?_⟩
      · intro he
        obtain ⟨e, he⟩ := he
        rw [hpe] at he
        exact absurd he (by simp)
      · intro h
        rcases h with h | ⟨v', msg', hv', hg'⟩
        · exact absurd h (by simp)
        · have h : v = v' := by injection hv'
          subst h
          rw [hg] at hg'
          exact absurd hg' (by simp)
      · intro v' msg' hv' hg'
        have h : v = v' := by injection hv'
        subst h
        rw [hg] at hg'
        exact absurd hg' (by simp)
      · intro h; exact absurd h (by simp)
      · intro r hr
        rw [hpe] at hr
        have h : dialectTransform v t = r := by injection hr
        exact ⟨v, t, rfl, hg, h.symm⟩

theorem C2_facade_witness :
    parse_csa "PI\n+\n" =
      Except.error (CsaError.ParseError "No version found or unsupported version") :=
  (C2_facade_error_exactly_on_detect_or_grammar "PI\n+\n").2.2.1 (by rfl)

/-- Whether a rule labels one of the three grid encodings. -/
def isGridKind (r : Rule) : Bool :=
  match r with
  | .grid => true
  | .minishogi_grid => true
  | .wildcat_grid => true
  | _ => false

/-- Number of grid variants set in a position. -/
def gridCount (p : Position) : Nat :=
  (if p.bulk.isSome then 1 else 0) + (if p.minishogi_bulk.isSome then 1 else 0) +
    (if p.wildcat_bulk.isSome then 1 else 0)

/-- The grid-kind children of a syntax-tree node. -/
def gridKindChildren (p : Pair) : List Pair :=
  p.intoInner.filter fun c => isGridKind c.asRule

theorem v2_2_positionStep_count (pos : Position) (c : Pair) :
    gridCount (v2_2.positionStep pos c) ≤
      gridCount pos + (if isGridKind c.asRule then 1 else 0) := by
  cases hr : c.asRule <;>
    simp only [v2_2.positionStep, hr, isGridKind] <;>
    simp [gridCount] <;> split_ifs <;> omega

theorem v2_2_fold_position_count (cs : List Pair) : ∀ pos : Position,
    gridCount (cs.foldl v2_2.positionStep pos) ≤
      gridCount pos + (cs.filter fun c => isGridKind c.asRule).length := by
  induction cs with
  | nil => intro pos; simp
  | cons c cs ih =>
    intro pos
    rw [List.foldl_cons]
    have h1 := ih (v2_2.positionStep pos c)
    have h2 := v2_2_positionStep_count pos c
    have h3 : ((c :: cs).filter fun c => isGridKind c.asRule).length =
        (if isGridKind c.asRule then 1 else 0) +
          (cs.filter fun c => isGridKind c.asRule).length := by
      rw [List.filter_cons]
      by_cases h : isGridKind c.asRule <;> simp [h] <;> omega
    omega

theorem v2_2_parse_position_count (p : Pair) :
    gridCount (v2_2.parse_position p) ≤ (gridKindChildren p).length := by
  have := v2_2_fold_position_count p.intoInner Position.default
  simpa [v2_2.parse_position, gridKindChildren, gridCount, Position.default] using this

theorem v3_positionStep_count (pos : Position) (c : Pair) :
    gridCount (v3.positionStep pos c) ≤
      gridCount pos + (if isGridKind c.asRule then 1 else 0) := by
  cases hr : c.asRule <;>
    simp only [v3.positionStep, hr, isGridKind] <;>
    simp [gridCount] <;> split_ifs <;> omega

theorem v3_fold_position_count (cs : List Pair) : ∀ pos : Position,
    gridCount (cs.foldl v3.positionStep pos) ≤
      gridCount pos + (cs.filter fun c => isGridKind c.asRule).length := by
  induction cs with
  | nil => intro pos; simp
  | cons c cs ih =>
    intro pos
    rw [List.foldl_cons]
    have h1 := ih (v3.positionStep pos c)
    have h2 := v3_positionStep_count pos c
    have h3 : ((c :: cs).filter fun c => isGridKind c.asRule).length =
        (if isGridKind c.asRule then 1 else 0) +
          (cs.filter fun c => isGridKind c.asRule).length := by
      rw [List.filter_cons]
      by_cases h : isGridKind c.asRule <;> simp [h] <;> omega
    omega

theorem v3_parse_position_count (p : Pair) :
    gridCount (v3.parse_position p) ≤ (gridKindChildren p).length := by
  have := v3_fold_position_count p.intoInner Position.default
  simpa [v3.parse_position, gridKindChildren, gridCount, Position.default] using this

theorem v2_2_applyAttrValue_start_pos (k : String) (vi : Pair) (r : GameRecord) :
    (v2_2.applyAttrValue k vi r).start_pos = r.start_pos := by
  cases hr : vi.asRule <;> simp only [v2_2.applyAttrValue, hr] <;> split_ifs <;> rfl

theorem v2_2_attrValueFold_start_pos (k : String) (vis : List Pair) : ∀ r : GameRecord,
    ((vis.foldl (fun r2 vi => v2_2.applyAttrValue k vi r2) r)).start_pos = r.start_pos := by
  induction vis with
  | nil => intro r; rfl
  | cons vi vis ih =>
    intro r
    rw [List.foldl_cons, ih, v2_2_applyAttrValue_start_pos]

theorem v2_2_gameAttrFold_start_pos (cs : List Pair) : ∀ acc : String × GameRecord,
    ((cs.foldl v2_2.gameAttrStep acc).2).start_pos = acc.2.start_pos := by
  induction cs with
  | nil => intro acc; rfl
  | cons c cs ih =>
    intro acc
    rw [List.foldl_cons, ih]
    cases hr : c.asRule <;> simp only [v2_2.gameAttrStep, hr] <;>
      first
        | rfl
        | exact v2_2_attrValueFold_start_pos acc.1 c.intoInner acc.2

theorem v2_2_parse_game_attr_start_pos (p : Pair) (r : GameRecord) :
    (v2_2.parse_game_attr p r).start_pos = r.start_pos :=
  v2_2_gameAttrFold_start_pos p.intoInner ("", r)

theorem v3_applyAttrValue_start_pos (k : String) (vi : Pair) (r : GameRecord) :
    (v3.applyAttrValue k vi r).start_pos = r.start_pos := by
  cases hr : vi.asRule <;> simp only [v3.applyAttrValue, hr] <;> split_ifs <;> rfl

theorem v3_attrValueFold_start_pos (k : String) (vis : List Pair) : ∀ r : GameRecord,
    ((vis.foldl (fun r2 vi => v3.applyAttrValue k vi r2) r)).start_pos = r.start_pos := by
  induction vis with
  | nil => intro r; rfl
  | cons vi vis ih =>
    intro r
    rw [List.foldl_cons, ih, v3_applyAttrValue_start_pos]

theorem v3_gameAttrFold_start_pos (cs : List Pair) : ∀ acc : String × GameRecord,
    ((cs.foldl v3.gameAttrStep acc).2).start_pos = acc.2.start_pos := by
  induction cs with
  | nil => intro acc; rfl
  | cons c cs ih =>
    intro acc
    rw [List.foldl_cons, ih]
    cases hr : c.asRule <;> simp only [v3.gameAttrStep, hr] <;>
      first
        | rfl
        | exact v3_attrValueFold_start_pos acc.1 c.intoInner acc.2

theorem v3_parse_game_attr_start_pos (p : Pair) (r : GameRecord) :
    (v3.parse_game_attr p r).start_pos = r.start_pos :=
  v3_gameAttrFold_start_pos p.intoInner ("", r)

theorem v2_2_transform_fold_le (cs : List Pair) : ∀ rec : GameRecord,
    (∀ c ∈ cs, c.asRule = Rule.position → (gridKindChildren c).length ≤ 1) →
    gridCount rec.start_pos ≤ 1 →
    gridCount ((cs.foldl v2_2.transformStep rec)).start_pos ≤ 1 := by
  induction cs with
  | nil => intro rec _ h1; exact h1
  | cons c cs ih =>
    intro rec hcs h1
    rw [List.foldl_cons]
    refine ih _ (fun x hx hrx => hcs x (by simp [hx]) hrx) ?_
    cases hr : c.asRule
    case game_attr =>
      simp only [v2_2.transformStep, hr]
      rw [v2_2_parse_game_attr_start_pos]
      exact h1
    case position =>
      simp only [v2_2.transformStep, hr]
      have := le_trans (v2_2_parse_position_count c) (hcs c (by simp) hr)
      simpa using this
    all_goals (simp only [v2_2.transformStep, hr]; simpa [gridCount] using h1)

theorem v2_2_transform_grid_le (root : Pair)
    (h : ∀ c ∈ root.intoInner, c.asRule = Rule.position → (gridKindChildren c).length ≤ 1) :
    gridCount (v2_2.transform root).start_pos ≤ 1 := by
  unfold v2_2.transform
  split_ifs
  · exact v2_2_transform_fold_le root.intoInner GameRecord.default h
      (by simp [gridCount, GameRecord.default, Position.default])
  · simp [gridCount, GameRecord.default, Position.default]

theorem v3_transform_fold_le (cs : List Pair) : ∀ rec : GameRecord,
    (∀ c ∈ cs, c.asRule = Rule.position → (gridKindChildren c).length ≤ 1) →
    gridCount rec.start_pos ≤ 1 →
    gridCount ((cs.foldl v3.transformStep rec)).start_pos ≤ 1 := by
  induction cs with
  | nil => intro rec _ h1; exact h1
  | cons c cs ih =>
    intro rec hcs h1
    rw [List.foldl_cons]
    refine ih _ (fun x hx hrx => hcs x (by simp [hx]) hrx) ?_
    cases hr : c.asRule
    case game_attr =>
      simp only [v3.transformStep, hr]
      rw [v3_parse_game_attr_start_pos]
      exact h1
    case position =>
      simp only [v3.transformStep, hr]
      have := le_trans (v3_parse_position_count c) (hcs c (by simp) hr)
      simpa using this
    all_goals (simp only [v3.transformStep, hr]; simpa [gridCount] using h1)

theorem v3_transform_grid_le (root : Pair)
    (h : ∀ c ∈ root.intoInner, c.asRule = Rule.position → (gridKindChildren c).length ≤ 1) :
    gridCount (v3.transform root).start_pos ≤ 1 := by
  unfold v3.transform
  split_ifs
  · exact v3_transform_fold_le root.intoInner GameRecord.default h
      (by simp [gridCount, GameRecord.default, Position.default])
  · simp [gridCount, GameRecord.default, Position.default]

theorem except_bind_ok {ε α β : Type} (e : Except ε α) (f : α → Except ε β) (b : β)
    (h : (e >>= f) = Except.ok b) : ∃ a, e = Except.ok a ∧ f a = Except.ok b := by
  cases e with
  | error err => simp [Bind.bind, Except.bind] at h
  | ok a => exact ⟨a, rfl, by simpa [Bind.bind, Except.bind] using h⟩

theorem except_map_ok {ε α β : Type} (f : α → β) (e : Except ε α) (b : β)
    (h : e.map f = Except.ok b) : ∃ a, e = Except.ok a ∧ b = f a := by
  cases e with
  | error err => simp [Except.map] at h
  | ok a =>
    refine ⟨a, rfl, ?_⟩
    simp only [Except.map] at h
    injection h with h2
    exact h2.symm

theorem mkGameAttr_rule (l : String) (p : Pair) (h : mkGameAttr l = Except.ok p) :
    p.asRule = Rule.game_attr := by
  cases hd : l.data with
  | nil => simp [mkGameAttr, hd] at h
  | cons c cs =>
    simp only [mkGameAttr, hd] at h
    split_ifs at h <;>
      first
        | (injection h with h2; subst h2; rfl)
        | exact absurd h (by simp)

theorem parseHeaderLines_rules (ls : List String) : ∀ (hs : List Pair) (rest : List String),
    parseHeaderLines ls = Except.ok (hs, rest) →
    ∀ c ∈ hs, c.asRule = Rule.black_player ∨ c.asRule = Rule.white_player ∨
      c.asRule = Rule.game_attr := by
  induction ls with
  | nil =>
    intro hs rest h c hc
    simp only [parseHeaderLines] at h
    injection h with h2
    rw [Prod.mk.injEq] at h2
    rw [← h2.1] at hc
    simp at hc
  | cons l rest' ih =>
    intro hs rest h c hc
    simp only [parseHeaderLines] at h
    cases hd : l.data with
    | nil =>
      simp only [hd] at h
      injection h with h2
      rw [Prod.mk.injEq] at h2
      rw [← h2.1] at hc
      simp at hc
    | cons a tl =>
      cases tl with
      | nil =>
        simp only [hd] at h
        injection h with h2
        rw [Prod.mk.injEq] at h2
        rw [← h2.1] at hc
        simp at hc
      | cons b name =>
        simp only [hd] at h
        split_ifs at h with h1 h2 h3
        · obtain ⟨pr, hpr, hb⟩ := except_map_ok _ _ _ h
          rw [Prod.mk.injEq] at hb
          rw [hb.1] at hc
          rcases List.mem_cons.mp hc with rfl | hc'
          · exact Or.inl rfl
          · exact ih pr.1 pr.2 (by rw [hpr]) c hc'
        · obtain ⟨pr, hpr, hb⟩ := except_map_ok _ _ _ h
          rw [Prod.mk.injEq] at hb
          rw [hb.1] at hc
          rcases List.mem_cons.mp hc with rfl | hc'
          · exact Or.inr (Or.inl rfl)
          · exact ih pr.1 pr.2 (by rw [hpr]) c hc'
        · obtain ⟨attr, hattr, h⟩ := except_bind_ok _ _ _ h
          obtain ⟨hr2, hhr, h⟩ := except_bind_ok _ _ _ h
          injection h with h4
          rw [Prod.mk.injEq] at h4
          rw [← h4.1] at hc
          rcases List.mem_cons.mp hc with rfl | hc'
          · exact Or.inr (Or.inr (mkGameAttr_rule l c hattr))
          · exact ih hr2.1 hr2.2 (by rw [hhr]) c hc'
        · injection h with h2
          rw [Prod.mk.injEq] at h2
          rw [← h2.1] at hc
          simp at hc

theorem gridOfRows_kind (cfg : GrammarConfig) (rows : List (Nat × List Pair)) (gp : Pair)
    (h : gridOfRows cfg rows = Except.ok gp) : isGridKind gp.asRule = true := by
  unfold gridOfRows at h
  split_ifs at h <;>
    first
      | (injection h with h2; subst h2; rfl)
      | exact absurd h (by simp)

theorem parsePositionSection_ok (cfg : GrammarConfig) (lines : List String) (p : Pair)
    (rest : List String) (h : parsePositionSection cfg lines = Except.ok (some p, rest)) :
    p.asRule = Rule.position ∧ (gridKindChildren p).length ≤ 1 := by
  cases lines with
  | nil => simp [parsePositionSection] at h
  | cons l rest' =>
    simp only [parsePositionSection] at h
    cases hd : l.data with
    | nil =>
      simp only [hd] at h
      injection h with h2
      rw [Prod.mk.injEq] at h2
      exact absurd h2.1 (by simp)
    | cons a tl =>
      cases tl with
      | nil =>
        simp only [hd] at h
        injection h with h2
        rw [Prod.mk.injEq] at h2
        exact absurd h2.1 (by simp)
      | cons cchar cs =>
        simp only [hd] at h
        split_ifs at h with hP hI hpm hdg
        · injection h with h2
          rw [Prod.mk.injEq] at h2
          exact absurd h2.1 (by simp)
        · cases hh : handicapChunks cs with
          | none => simp only [hh] at h; exact absurd h (by simp)
          | some hcs =>
            simp only [hh] at h
            obtain ⟨pr, hpr, h⟩ := except_bind_ok _ _ _ h
            injection h with h2
            rw [Prod.mk.injEq] at h2
            obtain ⟨h3, _⟩ := h2
            injection h3 with h4
            subst h4
            refine ⟨rfl, ?_⟩
            by_cases he : pr.1.isEmpty <;>
              simp [gridKindChildren, Pair.intoInner, Pair.asRule, he, List.filter_cons,
                isGridKind]
        · obtain ⟨pr, hpr, h⟩ := except_bind_ok _ _ _ h
          injection h with h2
          rw [Prod.mk.injEq] at h2
          obtain ⟨h3, _⟩ := h2
          injection h3 with h4
          subst h4
          refine ⟨rfl, ?_⟩
          by_cases he : pr.1.isEmpty <;>
            simp [gridKindChildren, Pair.intoInner, Pair.asRule, he, List.filter_cons,
              isGridKind]
        · obtain ⟨gr, hgr, h⟩ := except_bind_ok _ _ _ h
          obtain ⟨gp, hgp, h⟩ := except_bind_ok _ _ _ h
          obtain ⟨pr, hpr, h⟩ := except_bind_ok _ _ _ h
          injection h with h2
          rw [Prod.mk.injEq] at h2
          obtain ⟨h3, _⟩ := h2
          injection h3 with h4
          subst h4
          refine ⟨rfl, ?_⟩
          have hkind := gridOfRows_kind cfg gr.1 gp hgp
          have hplaced : List.filter (fun c => isGridKind c.asRule)
              (if pr.1.isEmpty = true then ([] : List Pair)
               else [Pair.mk Rule.piece_placement_lines "" pr.1]) = [] := by
            by_cases he : pr.1.isEmpty <;> simp [he, isGridKind, Pair.asRule]
          simp only [gridKindChildren, Pair.intoInner, List.filter_cons, hkind, if_true, hplaced]
          simp
        · injection h with h2
          rw [Prod.mk.injEq] at h2
          exact absurd h2.1 (by simp)

theorem parseSideLine_rule (lines : List String) (p : Pair) (rest : List String)
    (h : parseSideLine lines = (some p, rest)) : p.asRule = Rule.side_to_move := by
  cases lines with
  | nil => simp [parseSideLine] at h
  | cons l rest' =>
    simp only [parseSideLine] at h
    split_ifs at h
    · rw [Prod.mk.injEq] at h
      obtain ⟨h1, _⟩ := h
      injection h1 with h2
      subst h2
      rfl
    · rw [Prod.mk.injEq] at h
      obtain ⟨h1, _⟩ := h
      injection h1 with h2
      subst h2
      rfl
    · rw [Prod.mk.injEq] at h
      exact absurd h.1 (by simp)

theorem grammarParse_position_children (cfg : GrammarConfig) (input : String) (t : Pair)
    (h : grammarParse cfg input = Except.ok t) :
    ∀ c ∈ t.intoInner, c.asRule = Rule.position → (gridKindChildren c).length ≤ 1 := by
  unfold grammarParse at h
  cases hcl : contentLines input with
  | nil => simp only [hcl] at h; exact absurd h (by simp)
  | cons v rest =>
    simp only [hcl] at h
    by_cases hv : v ≠ cfg.versionTok
    · rw [if_pos hv] at h
      exact absurd h (by simp)
    · rw [if_neg hv] at h
      obtain ⟨hdr, hhdr, h⟩ := except_bind_ok _ _ _ h
      obtain ⟨pos, hpos, h⟩ := except_bind_ok _ _ _ h
      obtain ⟨mvs, hmvs, h⟩ := except_bind_ok _ _ _ h
      injection h with h2
      subst h2
      intro c hc hcrule
      simp only [Pair.intoInner] at hc
      rw [List.append_assoc, List.append_assoc] at hc
      rcases List.mem_append.mp hc with hc | hc
      · have := parseHeaderLines_rules rest hdr.1 hdr.2 (by rw [hhdr]) c hc
        rcases this with h' | h' | h' <;> rw [hcrule] at h' <;> exact absurd h' (by decide)
      · rcases List.mem_append.mp hc with hc | hc
        · cases hp : pos.1 with
          | none => rw [hp] at hc; simp at hc
          | some pp =>
            rw [hp] at hc
            simp only [Option.toList_some, List.mem_singleton] at hc
            subst hc
            exact (parsePositionSection_ok cfg hdr.2 c pos.2 (by rw [hpos, ← hp])).2
        · rcases List.mem_append.mp hc with hc | hc
          · cases hs : (parseSideLine pos.2).1 with
            | none => rw [hs] at hc; simp at hc
            | some sp =>
              rw [hs] at hc
              simp only [Option.toList_some, List.mem_singleton] at hc
              subst hc
              have := parseSideLine_rule pos.2 c (parseSideLine pos.2).2 (by rw [← hs])
              rw [hcrule] at this
              exact absurd this (by decide)
          · simp only [List.mem_singleton] at hc
            subst hc
            simp [Pair.asRule] at hcrule

theorem parse_csa_ok_inv (input : String) (r : GameRecord) (h : parse_csa input = Except.ok r) :
    ∃ v t, detect_version input = some v ∧ grammarParse (dialectConfig v) input = Except.ok t ∧
      r = dialectTransform v t := by
  cases hdet : detect_version input with
  | none =>
    have hpe : parse_csa input =
        Except.error (CsaError.ParseError "No version found or unsupported version") := by
      rw [parse_csa_eq, hdet]
    rw [hpe] at h
    exact absurd h (by simp)
  | some v =>
    cases hg : grammarParse (dialectConfig v) input with
    | error msg =>
      have hpe : parse_csa input = Except.error (CsaError.ParseError msg) := by
        rw [parse_csa_eq, hdet]
        show (match grammarParse (dialectConfig v) input with
          | Except.error m => Except.error (CsaError.ParseError m)
          | Except.ok t => Except.ok (dialectTransform v t)) = _
        rw [hg]
      rw [hpe] at h
      exact absurd h (by simp)
    | ok t =>
      have hpe : parse_csa input = Except.ok (dialectTransform v t) := by
        rw [parse_csa_eq, hdet]
        show (match grammarParse (dialectConfig v) input with
          | Except.error m => Except.error (CsaError.ParseError m)
          | Except.ok t => Except.ok (dialectTransform v t)) = _
        rw [hg]
      rw [hpe] at h
      have h2 : dialectTransform v t = r := by injection h
      exact ⟨v, t, rfl, hg, h2.symm⟩

theorem exists_cons_rule_iff (c : Pair) (cs : List Pair) (r : Rule) (h : c.asRule ≠ r) :
    (∃ x ∈ c :: cs, x.asRule = r) ↔ (∃ x ∈ cs, x.asRule = r) := by
  constructor
  · rintro ⟨x, hx, hxr⟩
    rcases List.mem_cons.mp hx with rfl | hx'
    · exact absurd hxr h
    · exact ⟨x, hx', hxr⟩
  · rintro ⟨x, hx, hxr⟩
    exact ⟨x, List.mem_cons_of_mem _ hx, hxr⟩

theorem v2_2_positionStep_bulk (pos : Position) (c : Pair) :
    (v2_2.positionStep pos c).bulk =
      if c.asRule = Rule.grid then some (v2_2.parse_grid c) else pos.bulk := by
  cases hr : c.asRule <;> simp [v2_2.positionStep, hr]

theorem v2_2_positionStep_mini (pos : Position) (c : Pair) :
    (v2_2.positionStep pos c).minishogi_bulk =
      if c.asRule = Rule.minishogi_grid then some (v2_2.parse_minishogi_grid c)
      else pos.minishogi_bulk := by
  cases hr : c.asRule <;> simp [v2_2.positionStep, hr]

theorem v2_2_positionStep_wild (pos : Position) (c : Pair) :
    (v2_2.positionStep pos c).wildcat_bulk =
      if c.asRule = Rule.wildcat_grid then some (v2_2.parse_wildcat_grid c)
      else pos.wildcat_bulk := by
  cases hr : c.asRule <;> simp [v2_2.positionStep, hr]

theorem v3_positionStep_bulk (pos : Position) (c : Pair) :
    (v3.positionStep pos c).bulk =
      if c.asRule = Rule.grid then some (v3.parse_grid c) else pos.bulk := by
  cases hr : c.asRule <;> simp [v3.positionStep, hr]

theorem v3_positionStep_mini (pos : Position) (c : Pair) :
    (v3.positionStep pos c).minishogi_bulk = pos.minishogi_bulk := by
  cases hr : c.asRule <;> simp [v3.positionStep, hr]

theorem v3_positionStep_wild (pos : Position) (c : Pair) :
    (v3.positionStep pos c).wildcat_bulk = pos.wildcat_bulk := by
  cases hr : c.asRule <;> simp [v3.positionStep, hr]

theorem v2_2_fold_bulk_iff (cs : List Pair) : ∀ pos : Position,
    ((cs.foldl v2_2.positionStep pos).bulk.isSome = true ↔
      (pos.bulk.isSome = true ∨ ∃ x ∈ cs, x.asRule = Rule.grid)) := by
  induction cs with
  | nil => intro pos; simp
  | cons c cs ih =>
    intro pos
    rw [List.foldl_cons, ih, v2_2_positionStep_bulk]
    by_cases h : c.asRule = Rule.grid
    · rw [if_pos h]
      simp only [Option.isSome_some]
      constructor
      · intro _
        exact Or.inr ⟨c, by simp, h⟩
      · intro _
        exact Or.inl trivial
    · rw [if_neg h, exists_cons_rule_iff c cs Rule.grid h]

theorem v2_2_fold_mini_iff (cs : List Pair) : ∀ pos : Position,
    ((cs.foldl v2_2.positionStep pos).minishogi_bulk.isSome = true ↔
      (pos.minishogi_bulk.isSome = true ∨ ∃ x ∈ cs, x.asRule = Rule.minishogi_grid)) := by
  induction cs with
  | nil => intro pos; simp
  | cons c cs ih =>
    intro pos
    rw [List.foldl_cons, ih, v2_2_positionStep_mini]
    by_cases h : c.asRule = Rule.minishogi_grid
    · rw [if_pos h]
      simp only [Option.isSome_some]
      constructor
      · intro _
        exact Or.inr ⟨c, by simp, h⟩
      · intro _
        exact Or.inl trivial
    · rw [if_neg h, exists_cons_rule_iff c cs Rule.minishogi_grid h]

theorem v2_2_fold_wild_iff (cs : List Pair) : ∀ pos : Position,
    ((cs.foldl v2_2.positionStep pos).wildcat_bulk.isSome = true ↔
      (pos.wildcat_bulk.isSome = true ∨ ∃ x ∈ cs, x.asRule = Rule.wildcat_grid)) := by
  induction cs with
  | nil => intro pos; simp
  | cons c cs ih =>
    intro pos
    rw [List.foldl_cons, ih, v2_2_positionStep_wild]
    by_cases h : c.asRule = Rule.wildcat_grid
    · rw [if_pos h]
      simp only [Option.isSome_some]
      constructor
      · intro _
        exact Or.inr ⟨c, by simp, h⟩
      · intro _
        exact Or.inl trivial
    · rw [if_neg h, exists_cons_rule_iff c cs Rule.wildcat_grid h]

theorem v3_fold_bulk_iff (cs : List Pair) : ∀ pos : Position,
    ((cs.foldl v3.positionStep pos).bulk.isSome = true ↔
      (pos.bulk.isSome = true ∨ ∃ x ∈ cs, x.asRule = Rule.grid)) := by
  induction cs with
  | nil => intro pos; simp
  | cons c cs ih =>
    intro pos
    rw [List.foldl_cons, ih, v3_positionStep_bulk]
    by_cases h : c.asRule = Rule.grid
    · rw [if_pos h]
      simp only [Option.isSome_some]
      constructor
      · intro _
        exact Or.inr ⟨c, by simp, h⟩
      · intro _
        exact Or.inl trivial
    · rw [if_neg h, exists_cons_rule_iff c cs Rule.grid h]

theorem v3_fold_mini_eq (cs : List Pair) : ∀ pos : Position,
    (cs.foldl v3.positionStep pos).minishogi_bulk = pos.minishogi_bulk := by
  induction cs with
  | nil => intro pos; rfl
  | cons c cs ih =>
    intro pos
    rw [List.foldl_cons, ih, v3_positionStep_mini]

theorem v3_fold_wild_eq (cs : List Pair) : ∀ pos : Position,
    (cs.foldl v3.positionStep pos).wildcat_bulk = pos.wildcat_bulk := by
  induction cs with
  | nil => intro pos; rfl
  | cons c cs ih =>
    intro pos
    rw [List.foldl_cons, ih, v3_positionStep_wild]

theorem no_gridkind_of_filter_nil (p : Pair) (h : gridKindChildren p = []) (r : Rule)
    (hr : isGridKind r = true) : ¬∃ x ∈ p.intoInner, x.asRule = r := by
  rintro ⟨x, hx, hxr⟩
  have hmem : x ∈ gridKindChildren p := by
    rw [gridKindChildren]
    exact List.mem_filter.mpr ⟨hx, by rw [hxr]; exact hr⟩
  rw [h] at hmem
  simp at hmem

theorem singleton_gridkind_mem (p : Pair) (g : Pair) (h : gridKindChildren p = [g]) :
    g ∈ p.intoInner ∧ isGridKind g.asRule = true := by
  have hmem : g ∈ gridKindChildren p := by rw [h]; simp
  rw [gridKindChildren] at hmem
  exact List.mem_filter.mp hmem

theorem singleton_gridkind_no_other (p : Pair) (g : Pair) (h : gridKindChildren p = [g])
    (r : Rule) (hrk : isGridKind r = true) (hgr : g.asRule ≠ r) :
    ¬∃ x ∈ p.intoInner, x.asRule = r := by
  rintro ⟨x, hx, hxr⟩
  have hmem : x ∈ gridKindChildren p := by
    rw [gridKindChildren]
    exact List.mem_filter.mpr ⟨hx, by rw [hxr]; exact hrk⟩
  rw [h] at hmem
  simp only [List.mem_singleton] at hmem
  subst hmem
  exact hgr hxr

/-- C7: at most one of the three grid fields is ever set. For every input
the facade accepts, the resulting starting position has at most one grid
variant populated; a position node with no grid-kind child yields none of
the three grids (in both transcribed dialects), and a position node with
exactly one grid-kind child populates exactly the variant that child's
grammar rule names. -/
theorem C7_grid_mutual_exclusion :
    (∀ (input : String) (r : GameRecord), parse_csa input = Except.ok r →
      gridCount r.start_pos ≤ 1) ∧
    (∀ p : Pair, gridKindChildren p = [] →
      ((v2_2.parse_position p).bulk = none ∧ (v2_2.parse_position p).minishogi_bulk = none ∧
        (v2_2.parse_position p).wildcat_bulk = none) ∧
      ((v3.parse_position p).bulk = none ∧ (v3.parse_position p).minishogi_bulk = none ∧
        (v3.parse_position p).wildcat_bulk = none)) ∧
    (∀ (p g : Pair), gridKindChildren p = [g] →
      (g.asRule = Rule.grid →
        (v2_2.parse_position p).bulk.isSome = true ∧
        (v2_2.parse_position p).minishogi_bulk = none ∧
        (v2_2.parse_position p).wildcat_bulk = none ∧
        (v3.parse_position p).bulk.isSome = true ∧
        (v3.parse_position p).minishogi_bulk = none ∧
        (v3.parse_position p).wildcat_bulk = none) ∧
      (g.asRule = Rule.minishogi_grid →
        (v2_2.parse_position p).bulk = none ∧
        (v2_2.parse_position p).minishogi_bulk.isSome = true ∧
        (v2_2.parse_position p).wildcat_bulk = none) ∧
      (g.asRule = Rule.wildcat_grid →
        (v2_2.parse_position p).bulk = none ∧
        (v2_2.parse_position p).minishogi_bulk = none ∧
        (v2_2.parse_position p).wildcat_bulk.isSome = true)) := by
  refine ⟨?_, ?_, ?_⟩
  · intro input r h
    obtain ⟨v, t, hdet, hg, rfl⟩ := parse_csa_ok_inv input r h
    have hch := grammarParse_position_children (dialectConfig v) input t hg
    cases v
    · exact v2_2_transform_grid_le t hch
    · exact v2_2_transform_grid_le t hch
    · exact v2_2_transform_grid_le t hch
    · exact v3_transform_grid_le t hch
  · intro p hempty
    have hnb := no_gridkind_of_filter_nil p hempty Rule.grid rfl
    have hnm := no_gridkind_of_filter_nil p hempty Rule.minishogi_grid rfl
    have hnw := no_gridkind_of_filter_nil p hempty Rule.wildcat_grid rfl
    refine ⟨⟨?_, ?_, ?_⟩, ⟨?_, ?_, ?_⟩⟩
    · have := v2_2_fold_bulk_iff p.intoInner Position.default
      rw [show (Position.default).bulk.isSome = false from rfl] at this
      cases hb : (v2_2.parse_position p).bulk with
      | none => rfl
      | some x =>
        exfalso
        have hsome : (v2_2.parse_position p).bulk.isSome = true := by rw [hb]; rfl
        rcases (this.mp (by rwa [v2_2.parse_position] at hsome)) with h' | h'
        · simp at h'
        · exact hnb h'
    · have := v2_2_fold_mini_iff p.intoInner Position.default
      rw [show (Position.default).minishogi_bulk.isSome = false from rfl] at this
      cases hb : (v2_2.parse_position p).minishogi_bulk with
      | none => rfl
      | some x =>
        exfalso
        have hsome : (v2_2.parse_position p).minishogi_bulk.isSome = true := by rw [hb]; rfl
        rcases (this.mp (by rwa [v2_2.parse_position] at hsome)) with h' | h'
        · simp at h'
        · exact hnm h'
    · have := v2_2_fold_wild_iff p.intoInner Position.default
      rw [show (Position.default).wildcat_bulk.isSome = false from rfl] at this
      cases hb : (v2_2.parse_position p).wildcat_bulk with
      | none => rfl
      | some x =>
        exfalso
        have hsome : (v2_2.parse_position p).wildcat_bulk.isSome = true := by rw [hb]; rfl
        rcases (this.mp (by rwa [v2_2.parse_position] at hsome)) with h' | h'
        · simp at h'
        · exact hnw h'
    · have := v3_fold_bulk_iff p.intoInner Position.default
      rw [show (Position.default).bulk.isSome = false from rfl] at this
      cases hb : (v3.parse_position p).bulk with
      | none => rfl
      | some x =>
        exfalso
        have hsome : (v3.parse_position p).bulk.isSome = true := by rw [hb]; rfl
        rcases (this.mp (by rwa [v3.parse_position] at hsome)) with h' | h'
        · simp at h'
        · exact hnb h'
    · rw [v3.parse_position, v3_fold_mini_eq]
      rfl
    · rw [v3.parse_position, v3_fold_wild_eq]
      rfl
  · intro p g hone
    obtain ⟨hmem, hkind⟩ := singleton_gridkind_mem p g hone
    refine ⟨?_, ?_, ?_⟩
    · intro hg
      have hnm := singleton_gridkind_no_other p g hone Rule.minishogi_grid rfl
        (by rw [hg]; decide)
      have hnw := singleton_gridkind_no_other p g hone Rule.wildcat_grid rfl
        (by rw [hg]; decide)
      refine ⟨?_, ?_, ?_, ?_, ?_, ?_⟩
      · rw [v2_2.parse_position]
        exact (v2_2_fold_bulk_iff p.intoInner Position.default).mpr (Or.inr ⟨g, hmem, hg⟩)
      · cases hb : (v2_2.parse_position p).minishogi_bulk with
        | none => rfl
        | some x =>
          exfalso
          have hsome : (v2_2.parse_position p).minishogi_bulk.isSome = true := by rw [hb]; rfl
          have := v2_2_fold_mini_iff p.intoInner Position.default
          rw [show (Position.default).minishogi_bulk.isSome = false from rfl] at this
          rcases (this.mp (by rwa [v2_2.parse_position] at hsome)) with h' | h'
          · simp at h'
          · exact hnm h'
      · cases hb : (v2_2.parse_position p).wildcat_bulk with
        | none => rfl
        | some x =>
          exfalso
          have hsome : (v2_2.parse_position p).wildcat_bulk.isSome = true := by rw [hb]; rfl
          have := v2_2_fold_wild_iff p.intoInner Position.default
          rw [show (Position.default).wildcat_bulk.isSome = false from rfl] at this
          rcases (this.mp (by rwa [v2_2.parse_position] at hsome)) with h' | h'
          · simp at h'
          · exact hnw h'
      · rw [v3.parse_position]
        exact (v3_fold_bulk_iff p.intoInner Position.default).mpr (Or.inr ⟨g, hmem, hg⟩)
      · rw [v3.parse_position, v3_fold_mini_eq]
        rfl
      · rw [v3.parse_position, v3_fold_wild_eq]
        rfl
    · intro hg
      have hnb := singleton_gridkind_no_other p g hone Rule.grid rfl (by rw [hg]; decide)
      have hnw := singleton_gridkind_no_other p g hone Rule.wildcat_grid rfl
        (by rw [hg]; decide)
      refine ⟨?_, ?_, ?_⟩
      · cases hb : (v2_2.parse_position p).bulk with
        | none => rfl
        | some x =>
          exfalso
          have hsome : (v2_2.parse_position p).bulk.isSome = true := by rw [hb]; rfl
          have := v2_2_fold_bulk_iff p.intoInner Position.default
          rw [show (Position.default).bulk.isSome = false from rfl] at this
          rcases (this.mp (by rwa [v2_2.parse_position] at hsome)) with h' | h'
          · simp at h'
          · exact hnb h'
      · rw [v2_2.parse_position]
        exact (v2_2_fold_mini_iff p.intoInner Position.default).mpr (Or.inr ⟨g, hmem, hg⟩)
      · cases hb : (v2_2.parse_position p).wildcat_bulk with
        | none => rfl
        | some x =>
          exfalso
          have hsome : (v2_2.parse_position p).wildcat_bulk.isSome = true := by rw [hb]; rfl
          have := v2_2_fold_wild_iff p.intoInner Position.default
          rw [show (Position.default).wildcat_bulk.isSome = false from rfl] at this
          rcases (this.mp (by rwa [v2_2.parse_position] at hsome)) with h' | h'
          · simp at h'
          · exact hnw h'
    · intro hg
      have hnb := singleton_gridkind_no_other p g hone Rule.grid rfl (by rw [hg]; decide)
      have hnm := singleton_gridkind_no_other p g hone Rule.minishogi_grid rfl
        (by rw [hg]; decide)
      refine ⟨?_, ?_, ?_⟩
      · cases hb : (v2_2.parse_position p).bulk with
        | none => rfl
        | some x =>
          exfalso
          have hsome : (v2_2.parse_position p).bulk.isSome = true := by rw [hb]; rfl
          have := v2_2_fold_bulk_iff p.intoInner Position.default
          rw [show (Position.default).bulk.isSome = false from rfl] at this
          rcases (this.mp (by rwa [v2_2.parse_position] at hsome)) with h' | h'
          · simp at h'
          · exact hnb h'
      · cases hb : (v2_2.parse_position p).minishogi_bulk with
        | none => rfl
        | some x =>
          exfalso
          have hsome : (v2_2.parse_position p).minishogi_bulk.isSome = true := by rw [hb]; rfl
          have := v2_2_fold_mini_iff p.intoInner Position.default
          rw [show (Position.default).minishogi_bulk.isSome = false from rfl] at this
          rcases (this.mp (by rwa [v2_2.parse_position] at hsome)) with h' | h'
          · simp at h'
          · exact hnm h'
      · rw [v2_2.parse_position]
        exact (v2_2_fold_wild_iff p.intoInner Position.default).mpr (Or.inr ⟨g, hmem, hg⟩)

theorem C7_grid_witness :
    gridCount (GameRecord.mk none none none none none none none none
      (Position.mk [] none none none [] Color.Black)
      [{ action := Action.Toryo, time := none }]).start_pos ≤ 1 :=
  C7_grid_mutual_exclusion.1 "V2\nPI\n+\n%TORYO\n"
    (GameRecord.mk none none none none none none none none
      (Position.mk [] none none none [] Color.Black)
      [{ action := Action.Toryo, time := none }]) (by decide)

end ShogiKifu
